import Mathlib

/-
Verification of the turnaround event and state engine of the porthub-royale
repository.  Python sources are shallowly embedded: floats that only ever
hold (half-)integral pixel coordinates and second timestamps are modelled
by rationals, dictionaries (which preserve insertion order in Python) by
association lists or by finitely updated functions, and mutation by
explicit state passing.  All definitions follow the Python sources
(src/rules_engine.py, src/infer.py, src/passenger_flow.py,
src/fingerdock_detection.py, app.py); theorems about them come after.
-/

namespace PortHub

/-- Axis-aligned box given by two corners, as used for both bboxes and ROIs. -/
structure Box where
  x1 : ℚ
  y1 : ℚ
  x2 : ℚ
  y2 : ℚ
deriving DecidableEq, Repr

/-- Membership test of src/rules_engine.py `_in_roi` (same code is repeated in
src/passenger_flow.py and src/fingerdock_detection.py): the bbox centroid,
not its corners, must fall inside the ROI rectangle, boundaries included. -/
def inRoi (bbox : Box) (roi : Box) : Bool :=
  let cx := (bbox.x1 + bbox.x2) / 2
  let cy := (bbox.y1 + bbox.y2) / 2
  decide (roi.x1 ≤ cx) && decide (cx ≤ roi.x2) && decide (roi.y1 ≤ cy) && decide (cy ≤ roi.y2)

/-- Association list update with Python dict semantics: replace in place when
the key is present (keeping its position), append otherwise. -/
def upsertA {α β : Type} [DecidableEq α] (k : α) (v : β) : List (α × β) → List (α × β)
  | [] => [(k, v)]
  | (k', v') :: t => if k' = k then (k, v) :: t else (k', v') :: upsertA k v t

/-- Association list lookup (Python dict `get`). -/
def lookupA {α β : Type} [DecidableEq α] (k : α) : List (α × β) → Option β
  | [] => none
  | (k', v') :: t => if k' = k then some v' else lookupA k t

/-- Association list deletion (Python `del d[k]`, first occurrence). -/
def eraseA {α β : Type} [DecidableEq α] (k : α) : List (α × β) → List (α × β)
  | [] => []
  | (k', v') :: t => if k' = k then t else (k', v') :: eraseA k t

theorem lookupA_upsertA_self {α β : Type} [DecidableEq α] (k : α) (v : β)
    (l : List (α × β)) : lookupA k (upsertA k v l) = some v := by
  induction l with
  | nil => simp [upsertA, lookupA]
  | cons h t ih =>
      obtain ⟨k', v'⟩ := h
      by_cases hk : k' = k
      · subst hk; simp [upsertA, lookupA]
      · simp [upsertA, lookupA, hk, ih]

theorem lookupA_upsertA_ne {α β : Type} [DecidableEq α] {k k0 : α} (v : β)
    (l : List (α × β)) (hne : k0 ≠ k) :
    lookupA k0 (upsertA k v l) = lookupA k0 l := by
  induction l with
  | nil => simp [upsertA, lookupA, Ne.symm hne]
  | cons h t ih =>
      obtain ⟨k', v'⟩ := h
      by_cases hk : k' = k
      · subst hk
        simp [upsertA, lookupA, Ne.symm hne]
      · by_cases hk0 : k' = k0
        · subst hk0; simp [upsertA, lookupA, hk]
        · simp [upsertA, lookupA, hk, hk0, ih]

/-
Alert engine, from src/rules_engine.py lines 28-98 (`AlertItem`,
`_upsert_alert`, `_close_alert`); app.py lines 118-136 holds a literal copy
of `_upsert_alert` acting on the session store.  The alert dictionary is
modelled as a finitely updated function from ids to optional items.
-/

/-- Record of src/rules_engine.py `AlertItem`. -/
structure AlertItem where
  alert_id : String
  severity : String
  rule_id : String
  message : String
  first_seen : ℚ
  last_seen : ℚ
  status : String
deriving DecidableEq, Repr

/-- Store of alerts keyed by alert id (the Python `alerts` dict). -/
def AlertStore : Type := String → Option AlertItem

/-- Empty alert store. -/
def emptyAlerts : AlertStore := fun _ => none

/-- Severity ranking dict `sev_rank` of `_upsert_alert`: unknown severities
rank 0 via `.get(severity, 0)`. -/
def sevRank (s : String) : Nat :=
  if s = "INFO" then 0 else if s = "WARNING" then 1 else if s = "CRITICAL" then 2 else 0

/-- Embedding of `_upsert_alert` (src/rules_engine.py lines 61-89): create an
OPEN item when the id is absent; otherwise refresh `last_seen`, escalate the
severity only when the new one outranks the stored one, and replace the
message unconditionally. -/
def upsertAlert (alert_id severity rule_id message : String) (now_t : ℚ)
    (alerts : AlertStore) : AlertStore :=
  match alerts alert_id with
  | none =>
      fun k =>
        if k = alert_id then
          some ⟨alert_id, severity, rule_id, message, now_t, now_t, "OPEN"⟩
        else alerts k
  | some a =>
      let a1 := { a with last_seen := now_t }
      let a2 :=
        if sevRank severity > sevRank a1.severity then { a1 with severity := severity } else a1
      let a3 := { a2 with message := message }
      fun k => if k = alert_id then some a3 else alerts k

/-- Embedding of `_close_alert` (src/rules_engine.py lines 92-98): absent id
is a no-op, otherwise refresh `last_seen` and set status CLOSED. -/
def closeAlert (alert_id : String) (now_t : ℚ) (alerts : AlertStore) : AlertStore :=
  match alerts alert_id with
  | none => alerts
  | some a =>
      fun k =>
        if k = alert_id then some { a with last_seen := now_t, status := "CLOSED" }
        else alerts k

/-- One call to the alert engine. -/
inductive AlertOp where
  | upsert (alert_id severity rule_id message : String) (now_t : ℚ)
  | close (alert_id : String) (now_t : ℚ)

/-- Apply one alert-engine call to the store. -/
def applyAlertOp (s : AlertStore) : AlertOp → AlertStore
  | AlertOp.upsert i sv r m t => upsertAlert i sv r m t s
  | AlertOp.close i t => closeAlert i t s

/-- Apply a sequence of alert-engine calls to the store. -/
def applyAlertOps (s : AlertStore) (ops : List AlertOp) : AlertStore :=
  ops.foldl applyAlertOp s

theorem upsertAlert_absent {s : AlertStore} {id : String} (sv r m : String) (t : ℚ)
    (h : s id = none) :
    upsertAlert id sv r m t s =
      fun k => if k = id then some ⟨id, sv, r, m, t, t, "OPEN"⟩ else s k := by
  simp [upsertAlert, h]

theorem upsertAlert_present {s : AlertStore} {id : String} {a : AlertItem}
    (sv r m : String) (t : ℚ) (h : s id = some a) :
    upsertAlert id sv r m t s =
      fun k =>
        if k = id then
          some { a with
                  last_seen := t,
                  severity := if sevRank sv > sevRank a.severity then sv else a.severity,
                  message := m }
        else s k := by
  by_cases hesc : sevRank sv > sevRank a.severity
  · simp [upsertAlert, h, hesc]
  · simp [upsertAlert, h, hesc]

theorem alertOp_preserves (op : AlertOp) (s : AlertStore) (id : String)
    (a : AlertItem) (h : s id = some a) :
    ∃ b, applyAlertOp s op id = some b ∧ sevRank a.severity ≤ sevRank b.severity := by
  cases op with
  | upsert i sv r m t =>
      by_cases hid : id = i
      · subst hid
        by_cases hesc : sevRank sv > sevRank a.severity
        · refine ⟨{ a with last_seen := t, severity := sv, message := m }, ?_, le_of_lt hesc⟩
          simp [applyAlertOp, upsertAlert, h, hesc]
        · refine ⟨{ a with last_seen := t, message := m }, ?_, le_refl _⟩
          simp [applyAlertOp, upsertAlert, h, hesc]
      · rcases hcase : s i with _ | b
        · exact ⟨a, by simp [applyAlertOp, upsertAlert, hcase, hid, h], le_refl _⟩
        · exact ⟨a, by simp [applyAlertOp, upsertAlert, hcase, hid, h], le_refl _⟩
  | close i t =>
      by_cases hid : id = i
      · subst hid
        refine ⟨{ a with last_seen := t, status := "CLOSED" }, ?_, le_refl _⟩
        simp [applyAlertOp, closeAlert, h]
      · rcases hcase : s i with _ | b
        · exact ⟨a, by simp [applyAlertOp, closeAlert, hcase, h], le_refl _⟩
        · exact ⟨a, by simp [applyAlertOp, closeAlert, hcase, hid, h], le_refl _⟩

theorem alertOps_preserve (ops : List AlertOp) (s : AlertStore) (id : String)
    (a : AlertItem) (h : s id = some a) :
    ∃ b, applyAlertOps s ops id = some b ∧ sevRank a.severity ≤ sevRank b.severity := by
  induction ops generalizing s a with
  | nil => exact ⟨a, h, le_refl _⟩
  | cons op rest ih =>
      obtain ⟨b, hb, hab⟩ := alertOp_preserves op s id a h
      obtain ⟨c, hc, hbc⟩ := ih (applyAlertOp s op) b hb
      exact ⟨c, hc, le_trans hab hbc⟩

/-- Claim C7: across any sequence of upsert and close calls the severity rank
of a stored alert never decreases (in particular while it is OPEN); closing an
absent id leaves the store unchanged; and two upserts with the same id and
escalating severities, starting from a store without that id, leave exactly
one entry for that id, OPEN, carrying the higher severity (and the first
rule id, the second message, first_seen from the first call and last_seen
from the second), all other ids untouched. -/
theorem C7_alert_invariants :
    (∀ (ops : List AlertOp) (s : AlertStore) (id : String) (a : AlertItem),
        s id = some a →
        ∃ b, applyAlertOps s ops id = some b ∧ sevRank a.severity ≤ sevRank b.severity) ∧
    (∀ (s : AlertStore) (id : String) (t : ℚ), s id = none → closeAlert id t s = s) ∧
    (∀ (s : AlertStore) (id s1 r1 m1 s2 r2 m2 : String) (t1 t2 : ℚ),
        s id = none → sevRank s1 < sevRank s2 →
        (upsertAlert id s2 r2 m2 t2 (upsertAlert id s1 r1 m1 t1 s)) id =
          some ⟨id, s2, r1, m2, t1, t2, "OPEN"⟩ ∧
        ∀ k, k ≠ id → (upsertAlert id s2 r2 m2 t2 (upsertAlert id s1 r1 m1 t1 s)) k = s k) := by
  refine ⟨?_, ?_, ?_⟩
  · exact alertOps_preserve
  · intro s id t h
    simp [closeAlert, h]
  · intro s id s1 r1 m1 s2 r2 m2 t1 t2 hnone hlt
    rw [upsertAlert_absent s1 r1 m1 t1 hnone]
    have h1 : (fun k => if k = id then some (AlertItem.mk id s1 r1 m1 t1 t1 "OPEN") else s k) id =
        some ⟨id, s1, r1, m1, t1, t1, "OPEN"⟩ := by simp
    rw [upsertAlert_present s2 r2 m2 t2 h1]
    constructor
    · simp [hlt]
    · intro k hk
      simp [hk]

/-- Witness for C7 at concrete inputs: a two-op history over a store holding
an INFO alert at id x, a close on an absent id, and the escalating double
upsert starting from the empty store. -/
theorem C7_alert_invariants_witness :
    (∃ b, applyAlertOps
          (fun k => if k = "x" then some ⟨"x", "INFO", "r", "m", 0, 0, "OPEN"⟩ else none)
          [AlertOp.upsert "x" "CRITICAL" "r" "m2" 4, AlertOp.close "x" 5] "x" = some b ∧
        sevRank (AlertItem.mk "x" "INFO" "r" "m" 0 0 "OPEN").severity ≤ sevRank b.severity) ∧
    closeAlert "absent" 3 emptyAlerts = emptyAlerts ∧
    ((upsertAlert "a" "WARNING" "r2" "m2" 2 (upsertAlert "a" "INFO" "r1" "m1" 1 emptyAlerts)) "a" =
        some ⟨"a", "WARNING", "r1", "m2", 1, 2, "OPEN"⟩ ∧
      ∀ k, k ≠ "a" →
        (upsertAlert "a" "WARNING" "r2" "m2" 2
            (upsertAlert "a" "INFO" "r1" "m1" 1 emptyAlerts)) k = emptyAlerts k) := by
  refine ⟨?_, ?_, ?_⟩
  · exact (C7_alert_invariants.1)
      [AlertOp.upsert "x" "CRITICAL" "r" "m2" 4, AlertOp.close "x" 5]
      (fun k => if k = "x" then some ⟨"x", "INFO", "r", "m", 0, 0, "OPEN"⟩ else none)
      "x" ⟨"x", "INFO", "r", "m", 0, 0, "OPEN"⟩ (by decide)
  · exact (C7_alert_invariants.2.1) emptyAlerts "absent" 3 rfl
  · exact (C7_alert_invariants.2.2) emptyAlerts "a" "INFO" "r1" "m1" "WARNING" "r2" "m2" 1 2
      rfl (by decide)

/-- Claim C9: an upsert on an id that already has a stored alert always
replaces the stored message with the new one and refreshes last_seen, keeping
the stored severity whenever the new one does not strictly outrank it (and
escalating otherwise); in particular the message is overwritten even when the
new severity ranks strictly below the stored one. -/
theorem C9_upsert_replaces_message (s : AlertStore) (id sv r m : String) (t : ℚ)
    (a : AlertItem) (h : s id = some a) :
    (upsertAlert id sv r m t s) id =
      some { a with
              last_seen := t,
              severity := if sevRank sv > sevRank a.severity then sv else a.severity,
              message := m } := by
  by_cases hesc : sevRank sv > sevRank a.severity
  · simp [upsertAlert, h, hesc]
  · simp [upsertAlert, h, hesc]

/-- Witness for C9: a CRITICAL alert upserted with INFO keeps CRITICAL but
takes the new message. -/
theorem C9_upsert_replaces_message_witness :
    (upsertAlert "a" "INFO" "r2" "newmsg" 5
        (fun k => if k = "a" then some ⟨"a", "CRITICAL", "r1", "old", 1, 1, "OPEN"⟩ else none)) "a" =
      some ⟨"a", "CRITICAL", "r1", "newmsg", 1, 5, "OPEN"⟩ := by
  have := C9_upsert_replaces_message
    (fun k => if k = "a" then some ⟨"a", "CRITICAL", "r1", "old", 1, 1, "OPEN"⟩ else none)
    "a" "INFO" "r2" "newmsg" 5 ⟨"a", "CRITICAL", "r1", "old", 1, 1, "OPEN"⟩ (by decide)
  simpa using this

/-
Task engine, from src/rules_engine.py: the task catalog TASKS (lines 13-22),
`_ensure_task` (47-48), `_set_status` (51-58) and `eval_tasks` (104-161).
Detections reaching the engine are rows of the tracked-detections dataframe
built by src/infer.py `detections_df_from_tracked`, so the cls_name and
track_id columns are always present on nonempty input.
-/

/-- Row of the tracked-detections dataframe. -/
structure RDet where
  bbox : Box
  conf : ℚ
  clsName : String
  trackId : Int
deriving DecidableEq, Repr

/-- Task record as created by `_ensure_task`. -/
structure TaskRec where
  status : String
  since : Option ℚ
  last_seen : Option ℚ
deriving DecidableEq, Repr

/-- Fresh task record of `_ensure_task`. -/
def defaultTask : TaskRec := ⟨"NOT_STARTED", none, none⟩

/-- Task history store: task key to record, insertion ordered. -/
def TaskHist : Type := List (String × TaskRec)

/-- Task counters: `eval_tasks` only ever writes the last_seen entry. -/
def TaskCounters : Type := List (String × ℚ)

/-- One entry of the TASKS catalog. -/
structure TaskDef where
  key : String
  title : String
  role : String
  roi : String
deriving DecidableEq, Repr

/-- Task catalog of src/rules_engine.py lines 13-22. -/
def TASKS : List TaskDef :=
  [⟨"fueling", "Fueling", "FUEL_TRUCK", "fuel"⟩,
   ⟨"gpu", "GPU connected", "GPU_TRUCK", "nose"⟩,
   ⟨"baggage", "Baggage unloading/loading", "BELT_LOADER", "belly"⟩,
   ⟨"pushback", "Pushback", "PUSHBACK_TUG", "aircraft"⟩,
   ⟨"safety_engine_clear", "Safety: Engine zone clear", "PERSON", "engine"⟩,
   ⟨"safety_pushback_clear", "Safety: Pushback area clear", "PERSON", "pushback"⟩,
   ⟨"safety_airside_presence", "Safety: Airside presence", "PERSON", "aircraft"⟩]

/-- Embedding of `_ensure_task`: `setdefault` with a fresh NOT_STARTED record. -/
def ensureTask (hist : TaskHist) (key : String) : TaskHist × TaskRec :=
  match lookupA key hist with
  | some r => (hist, r)
  | none => (upsertA key defaultTask hist, defaultTask)

/-- Embedding of `_set_status`: on a status change overwrite status and since,
then always refresh last_seen on the same record. -/
def setStatus (hist : TaskHist) (key : String) (status : String) (t : ℚ) : TaskHist :=
  let p := ensureTask hist key
  let r := p.2
  let r2 := if r.status ≠ status then { r with status := status, since := some t } else r
  upsertA key { r2 with last_seen := some t } p.1

/-- Embedding of the inner `any_role_in_roi` of `eval_tasks` (lines 113-139):
PERSON tasks test the person class, others test detections whose track id
carries the given role in asset_roles. -/
def anyRoleInRoi (dets : List RDet) (rois : String → Option Box)
    (assetRoles : List (Int × String)) (role roiKey : String) : Bool :=
  match rois roiKey with
  | none => false
  | some roi =>
      if dets.isEmpty then false
      else if role = "PERSON" then
        (dets.filter (fun d => d.clsName = "person")).any (fun d => inRoi d.bbox roi)
      else
        let taggedIds := (assetRoles.filter (fun p => p.2 = role)).map (fun p => p.1)
        if taggedIds.isEmpty then false
        else
          (dets.filter (fun d => taggedIds.contains d.trackId)).any
            (fun d => inRoi d.bbox roi)

/-- Embedding of the per-task body of the loop of `eval_tasks` lines 142-161.
There is no hysteresis counter in the source: a positive observation sets
ACTIVE at once (whatever the previous status), a negative one degrades only
ACTIVE to INACTIVE and otherwise just refreshes last_seen. -/
def evalTaskStep (dets : List RDet) (rois : String → Option Box)
    (assetRoles : List (Int × String)) (t : ℚ)
    (acc : TaskHist × TaskCounters) (task : TaskDef) : TaskHist × TaskCounters :=
  let seen := anyRoleInRoi dets rois assetRoles task.role task.roi
  let p := ensureTask acc.1 task.key
  let prev := p.2.status
  if seen then
    (setStatus p.1 task.key "ACTIVE" t, upsertA task.key t acc.2)
  else if prev = "ACTIVE" then
    (setStatus p.1 task.key "INACTIVE" t, acc.2)
  else
    (upsertA task.key { p.2 with last_seen := some t } p.1, acc.2)

/-- Embedding of `eval_tasks` (src/rules_engine.py lines 104-161): fold the
per-task body over the TASKS catalog. -/
def evalTasks (dets : List RDet) (rois : String → Option Box) (t : ℚ)
    (assetRoles : List (Int × String)) (hist : TaskHist) (counters : TaskCounters) :
    TaskHist × TaskCounters :=
  TASKS.foldl (evalTaskStep dets rois assetRoles t) (hist, counters)

/-- Status of a task in the history, NOT_STARTED when absent. -/
def statusOf (hist : TaskHist) (key : String) : String :=
  ((lookupA key hist).getD defaultTask).status

/-- Record produced at one task key by one `eval_tasks` tick, as a function of
the old record and the raw boolean of that tick. -/
def stepRecord (old : Option TaskRec) (seen : Bool) (t : ℚ) : TaskRec :=
  let r := old.getD defaultTask
  if seen then
    if r.status ≠ "ACTIVE" then { r with status := "ACTIVE", since := some t, last_seen := some t }
    else { r with last_seen := some t }
  else if r.status = "ACTIVE" then
    { r with status := "INACTIVE", since := some t, last_seen := some t }
  else { r with last_seen := some t }

theorem evalTaskStep_self (dets : List RDet) (rois : String → Option Box)
    (assetRoles : List (Int × String)) (t : ℚ) (acc : TaskHist × TaskCounters)
    (task : TaskDef) :
    lookupA task.key (evalTaskStep dets rois assetRoles t acc task).1 =
      some (stepRecord (lookupA task.key acc.1)
              (anyRoleInRoi dets rois assetRoles task.role task.roi) t) := by
  rcases hold : lookupA task.key acc.1 with _ | r
  · rcases hseen : anyRoleInRoi dets rois assetRoles task.role task.roi with _ | _
    · simp [evalTaskStep, ensureTask, setStatus, hold, hseen, stepRecord, defaultTask,
        lookupA_upsertA_self]
    · simp [evalTaskStep, ensureTask, setStatus, hold, hseen, stepRecord, defaultTask,
        lookupA_upsertA_self]
  · rcases hseen : anyRoleInRoi dets rois assetRoles task.role task.roi with _ | _
    · by_cases hact : r.status = "ACTIVE"
      · simp [evalTaskStep, ensureTask, setStatus, hold, hseen, stepRecord, hact,
          lookupA_upsertA_self]
      · simp [evalTaskStep, ensureTask, setStatus, hold, hseen, stepRecord, hact,
          lookupA_upsertA_self]
    · by_cases hact : r.status = "ACTIVE"
      · simp [evalTaskStep, ensureTask, setStatus, hold, hseen, stepRecord, hact,
          lookupA_upsertA_self]
      · simp [evalTaskStep, ensureTask, setStatus, hold, hseen, stepRecord, hact,
          lookupA_upsertA_self]

theorem evalTaskStep_other (dets : List RDet) (rois : String → Option Box)
    (assetRoles : List (Int × String)) (t : ℚ) (acc : TaskHist × TaskCounters)
    (task : TaskDef) (key : String) (hne : key ≠ task.key) :
    lookupA key (evalTaskStep dets rois assetRoles t acc task).1 =
      lookupA key acc.1 := by
  rcases hold : lookupA task.key acc.1 with _ | r
  · rcases hseen : anyRoleInRoi dets rois assetRoles task.role task.roi with _ | _
    · simp [evalTaskStep, ensureTask, setStatus, hold, hseen, defaultTask,
        lookupA_upsertA_ne _ _ hne, lookupA_upsertA_self]
    · simp [evalTaskStep, ensureTask, setStatus, hold, hseen, defaultTask,
        lookupA_upsertA_ne _ _ hne, lookupA_upsertA_self]
  · rcases hseen : anyRoleInRoi dets rois assetRoles task.role task.roi with _ | _
    · by_cases hact : r.status = "ACTIVE"
      · simp [evalTaskStep, ensureTask, setStatus, hold, hseen, hact,
          lookupA_upsertA_ne _ _ hne]
      · simp [evalTaskStep, ensureTask, setStatus, hold, hseen, hact,
          lookupA_upsertA_ne _ _ hne]
    · by_cases hact : r.status = "ACTIVE"
      · simp [evalTaskStep, ensureTask, setStatus, hold, hseen, hact,
          lookupA_upsertA_ne _ _ hne]
      · simp [evalTaskStep, ensureTask, setStatus, hold, hseen, hact,
          lookupA_upsertA_ne _ _ hne]

theorem evalTasks_fold_other (dets : List RDet) (rois : String → Option Box)
    (assetRoles : List (Int × String)) (t : ℚ) (tasks : List TaskDef)
    (acc : TaskHist × TaskCounters) (key : String)
    (h : ∀ task ∈ tasks, key ≠ task.key) :
    lookupA key (tasks.foldl (evalTaskStep dets rois assetRoles t) acc).1 =
      lookupA key acc.1 := by
  induction tasks generalizing acc with
  | nil => rfl
  | cons hd tl ih =>
      rw [List.foldl_cons, ih _ (fun task hmem => h task (List.mem_cons_of_mem hd hmem))]
      exact evalTaskStep_other dets rois assetRoles t acc hd key (h hd (List.mem_cons_self hd tl))

theorem evalTasks_fold_lookup (dets : List RDet) (rois : String → Option Box)
    (assetRoles : List (Int × String)) (t : ℚ) (tasks : List TaskDef)
    (acc : TaskHist × TaskCounters) (task : TaskDef) (hmem : task ∈ tasks)
    (hnodup : (tasks.map TaskDef.key).Nodup) :
    lookupA task.key (tasks.foldl (evalTaskStep dets rois assetRoles t) acc).1 =
      some (stepRecord (lookupA task.key acc.1)
              (anyRoleInRoi dets rois assetRoles task.role task.roi) t) := by
  induction tasks generalizing acc with
  | nil => cases hmem
  | cons hd tl ih =>
      rcases List.mem_cons.mp hmem with heq | hmem'
      · subst heq
        rw [List.foldl_cons]
        have hkeys : ∀ t' ∈ tl, task.key ≠ t'.key := by
          intro t' ht' heq
          exact (List.nodup_cons.mp hnodup).1 (heq ▸ List.mem_map_of_mem TaskDef.key ht')
        rw [evalTasks_fold_other dets rois assetRoles t tl _ task.key hkeys]
        exact evalTaskStep_self dets rois assetRoles t acc task
      · rw [List.foldl_cons]
        have hne : task.key ≠ hd.key := by
          intro heq
          exact (List.nodup_cons.mp hnodup).1 (heq ▸ List.mem_map_of_mem TaskDef.key hmem')
        rw [← evalTaskStep_other dets rois assetRoles t acc hd task.key hne] at *
        exact ih _ hmem' (List.nodup_cons.mp hnodup).2

theorem TASKS_keys_nodup : (TASKS.map TaskDef.key).Nodup := by decide

/-- Record-level characterization of one `eval_tasks` tick at any catalog
task: the new record is `stepRecord` of the old one and the raw boolean. -/
theorem evalTasks_lookup (dets : List RDet) (rois : String → Option Box)
    (assetRoles : List (Int × String)) (t : ℚ) (hist : TaskHist)
    (counters : TaskCounters) (task : TaskDef) (hmem : task ∈ TASKS) :
    lookupA task.key (evalTasks dets rois t assetRoles hist counters).1 =
      some (stepRecord (lookupA task.key hist)
              (anyRoleInRoi dets rois assetRoles task.role task.roi) t) :=
  evalTasks_fold_lookup dets rois assetRoles t TASKS (hist, counters) task hmem TASKS_keys_nodup

/-- ROI table holding only the fuel ROI at its app.py default rectangle. -/
def fuelRois : String → Option Box :=
  fun k => if k = "fuel" then some ⟨620, 170, 980, 520⟩ else none

/-- Truck detection with track id 1 whose centroid (800, 345) lies in the
fuel ROI. -/
def truckDet : RDet := ⟨⟨790, 340, 810, 350⟩, 9 / 10, "truck", 1⟩

/-- Claim C1 is refuted: `eval_tasks` contains no debounce counter at all, so
with the catalog role FUEL_TRUCK tagged on track 1 and the truck centered in
the fuel ROI, a single positive tick already flips fueling from NOT_STARTED
to ACTIVE.  Under the claimed hysteresis (spec example on_n = 3, and any
on_n at least 2) the status would still be NOT_STARTED after one tick. -/
theorem C1_counterexample :
    statusOf ([] : TaskHist) "fueling" = "NOT_STARTED" ∧
    statusOf (evalTasks [truckDet] fuelRois 0 [(1, "FUEL_TRUCK")] [] []).1 "fueling" =
      "ACTIVE" :=
  ⟨rfl, by with_unfolding_all rfl⟩

/-- Claim C1 (amended): `eval_tasks` applies no debounce, behaving as
on_n = off_n = 1.  At every catalog task, one tick sets the status to ACTIVE
whenever the raw in-ROI boolean is true (whatever the prior status, DONE
included), degrades ACTIVE to INACTIVE whenever it is false, and otherwise
leaves the prior status untouched. -/
theorem C1_no_debounce (dets : List RDet) (rois : String → Option Box)
    (assetRoles : List (Int × String)) (t : ℚ) (hist : TaskHist)
    (counters : TaskCounters) (task : TaskDef) (hmem : task ∈ TASKS) :
    statusOf (evalTasks dets rois t assetRoles hist counters).1 task.key =
      (if anyRoleInRoi dets rois assetRoles task.role task.roi then "ACTIVE"
       else if statusOf hist task.key = "ACTIVE" then "INACTIVE"
       else statusOf hist task.key) := by
  have h := evalTasks_lookup dets rois assetRoles t hist counters task hmem
  rcases hseen : anyRoleInRoi dets rois assetRoles task.role task.roi with _ | _
  · by_cases hact : statusOf hist task.key = "ACTIVE"
    · simp only [statusOf] at hact ⊢
      rw [h, hseen]
      simp [stepRecord, hact]
    · simp only [statusOf] at hact ⊢
      rw [h, hseen]
      simp [stepRecord, hact]
  · by_cases hact : statusOf hist task.key = "ACTIVE"
    · simp only [statusOf] at hact ⊢
      rw [h, hseen]
      simp [stepRecord, hact]
    · simp only [statusOf] at hact ⊢
      rw [h, hseen]
      simp [stepRecord, hact]

/-- Witness for the amended C1 at the concrete fueling tick. -/
theorem C1_no_debounce_witness :
    statusOf (evalTasks [truckDet] fuelRois 0 [(1, "FUEL_TRUCK")] [] []).1 "fueling" =
      (if anyRoleInRoi [truckDet] fuelRois [(1, "FUEL_TRUCK")] "FUEL_TRUCK" "fuel"
       then "ACTIVE"
       else if statusOf ([] : TaskHist) "fueling" = "ACTIVE" then "INACTIVE"
       else statusOf ([] : TaskHist) "fueling") :=
  C1_no_debounce [truckDet] fuelRois [(1, "FUEL_TRUCK")] 0 [] []
    ⟨"fueling", "Fueling", "FUEL_TRUCK", "fuel"⟩ (by simp [TASKS])

/-- Claim C2 is refuted: DONE is not absorbing under `eval_tasks`.  With the
fueling record DONE and the tagged truck centered in the fuel ROI, one call
overwrites DONE with ACTIVE. -/
theorem C2_counterexample :
    statusOf [("fueling", (⟨"DONE", some 5, some 5⟩ : TaskRec))] "fueling" = "DONE" ∧
    statusOf (evalTasks [truckDet] fuelRois 6 [(1, "FUEL_TRUCK")]
        [("fueling", ⟨"DONE", some 5, some 5⟩)] []).1 "fueling" = "ACTIVE" :=
  ⟨rfl, by with_unfolding_all rfl⟩

/-- Claim C2 (amended): `eval_tasks` preserves a DONE record exactly on ticks
where no detection of the task role is centered in the task ROI; such a tick
leaves the whole record unchanged apart from refreshing last_seen.  (A
positive tick overwrites DONE with ACTIVE, see the counterexample.) -/
theorem C2_done_preserved (dets : List RDet) (rois : String → Option Box)
    (assetRoles : List (Int × String)) (t : ℚ) (hist : TaskHist)
    (counters : TaskCounters) (task : TaskDef) (hmem : task ∈ TASKS) (r : TaskRec)
    (hr : lookupA task.key hist = some r) (hdone : r.status = "DONE")
    (hseen : anyRoleInRoi dets rois assetRoles task.role task.roi = false) :
    lookupA task.key (evalTasks dets rois t assetRoles hist counters).1 =
      some { r with last_seen := some t } := by
  rw [evalTasks_lookup dets rois assetRoles t hist counters task hmem, hr, hseen]
  simp [stepRecord, hdone]

/-- Witness for the amended C2: an empty frame leaves a DONE fueling record
DONE. -/
theorem C2_done_preserved_witness :
    lookupA "fueling" (evalTasks [] fuelRois 7 [(1, "FUEL_TRUCK")]
        [("fueling", ⟨"DONE", some 5, some 5⟩)] []).1 =
      some ⟨"DONE", some 5, some 7⟩ :=
  C2_done_preserved [] fuelRois [(1, "FUEL_TRUCK")] 7
    [("fueling", ⟨"DONE", some 5, some 5⟩)] []
    ⟨"fueling", "Fueling", "FUEL_TRUCK", "fuel"⟩ (by simp [TASKS])
    ⟨"DONE", some 5, some 5⟩ rfl rfl rfl

/-
Fingerdock detector, from src/fingerdock_detection.py (`FingerdockState` and
`detect_fingerdock`, lines 17-138).  The only nonrational quantity in the
source, the euclidean centroid displacement compared against 15.0 px, is
embedded by comparing its square against 225, which is equivalent for the
nonnegative reals involved.
-/

/-- State record of src/fingerdock_detection.py `FingerdockState`. -/
structure FingerdockState where
  status : String
  first_detected : Option ℚ
  connected_at : Option ℚ
  last_position : Option (ℚ × ℚ)
  last_position_time : Option ℚ
  is_moving : Bool
deriving DecidableEq, Repr

/-- Default `FingerdockState()`. -/
def initFingerdock : FingerdockState := ⟨"NOT_CONNECTED", none, none, none, none, false⟩

/-- Candidate filter of `detect_fingerdock` line 67: truck, bus or train. -/
def isDockCandidate (d : RDet) : Bool :=
  d.clsName = "truck" || d.clsName = "bus" || d.clsName = "train"

/-- Centroid of a box. -/
def centroid (b : Box) : ℚ × ℚ := ((b.x1 + b.x2) / 2, (b.y1 + b.y2) / 2)

/-- Embedding of `detect_fingerdock` (src/fingerdock_detection.py lines
40-138), returning the Python return value paired with the mutated state. -/
def detectFingerdock (dets : List RDet) (roi_fingerdock : Option Box) (t_sec : ℚ)
    (state : FingerdockState) : String × FingerdockState :=
  match roi_fingerdock with
  | none => (state.status, state)
  | some roi =>
      if dets.isEmpty then (state.status, state)
      else
        match (dets.filter isDockCandidate).find? (fun d => inRoi d.bbox roi) with
        | none =>
            if state.status = "CONNECTED" then (state.status, state)
            else
              let st := { state with status := "NOT_CONNECTED" }
              (st.status, st)
        | some d =>
            let cur := centroid d.bbox
            match state.first_detected with
            | none =>
                let st := { state with
                            first_detected := some t_sec,
                            last_position := some cur,
                            last_position_time := some t_sec,
                            status := "NOT_CONNECTED" }
                (st.status, st)
            | some fd =>
                match state.last_position with
                | none => (state.status, state)
                | some lp =>
                    let dx := cur.1 - lp.1
                    let dy := cur.2 - lp.2
                    if dx ^ 2 + dy ^ 2 > 225 then
                      let st := { state with
                                  is_moving := true,
                                  status := "OPERATING",
                                  last_position := some cur,
                                  last_position_time := some t_sec }
                      (st.status, st)
                    else
                      match state.last_position_time with
                      | some lpt =>
                          if state.is_moving then
                            if t_sec - lpt ≥ 10 then
                              let st := { state with
                                          status := "CONNECTED",
                                          is_moving := false,
                                          connected_at :=
                                            match state.connected_at with
                                            | none => some t_sec
                                            | some c => some c }
                              (st.status, st)
                            else
                              let st := { state with status := "OPERATING" }
                              (st.status, st)
                          else if state.status = "NOT_CONNECTED" then
                            if t_sec - fd ≥ 15 then
                              let st := { state with
                                          status := "CONNECTED",
                                          connected_at :=
                                            match state.connected_at with
                                            | none => some t_sec
                                            | some c => some c }
                              (st.status, st)
                            else (state.status, state)
                          else (state.status, state)
                      | none =>
                          if state.status = "NOT_CONNECTED" then
                            if t_sec - fd ≥ 15 then
                              let st := { state with
                                          status := "CONNECTED",
                                          connected_at :=
                                            match state.connected_at with
                                            | none => some t_sec
                                            | some c => some c }
                              (st.status, st)
                            else (state.status, state)
                          else (state.status, state)

/-- Person detection used to build frames with no dock candidate. -/
def personDet : RDet := ⟨⟨840, 200, 860, 260⟩, 8 / 10, "person", 7⟩

/-- Fingerdock ROI at its app.py default rectangle. -/
def fdRoi : Box := ⟨820, 160, 1080, 500⟩

/-- Claim C3 is refuted: the status is not sticky on a no-candidate tick.
With status OPERATING and a nonempty frame containing no truck, bus or train
centered in the fingerdock ROI, `detect_fingerdock` resets the status to
NOT_CONNECTED instead of leaving it unchanged. -/
theorem C3_counterexample :
    (⟨"OPERATING", some 0, none, some (800, 300), some 0, true⟩ :
        FingerdockState).status = "OPERATING" ∧
    (detectFingerdock [personDet] (some fdRoi) 5
        ⟨"OPERATING", some 0, none, some (800, 300), some 0, true⟩).1 =
      "NOT_CONNECTED" ∧
    (detectFingerdock [personDet] (some fdRoi) 5
        ⟨"OPERATING", some 0, none, some (800, 300), some 0, true⟩).2.status =
      "NOT_CONNECTED" := by
  refine ⟨rfl, ?_, ?_⟩ <;> with_unfolding_all rfl

/-- Claim C3 (amended): with the ROI unset or the detection frame empty the
state is returned untouched; on a nonempty frame with no candidate centered
in the ROI, CONNECTED persists but every other status (OPERATING included)
is overwritten with NOT_CONNECTED, the rest of the state unchanged. -/
theorem C3_sticky_status (dets : List RDet) (roi : Box) (t : ℚ)
    (state : FingerdockState) :
    (∀ d : List RDet, detectFingerdock d none t state = (state.status, state)) ∧
    (detectFingerdock [] (some roi) t state = (state.status, state)) ∧
    ((dets.filter isDockCandidate).find? (fun d => inRoi d.bbox roi) = none →
      dets ≠ [] →
      (state.status = "CONNECTED" →
        detectFingerdock dets (some roi) t state = (state.status, state)) ∧
      (state.status ≠ "CONNECTED" →
        detectFingerdock dets (some roi) t state =
          ("NOT_CONNECTED", { state with status := "NOT_CONNECTED" }))) := by
  refine ⟨fun d => rfl, by simp [detectFingerdock], ?_⟩
  intro hfind hne
  have hempty : dets.isEmpty = false := by
    cases dets with
    | nil => exact absurd rfl hne
    | cons a l => rfl
  constructor
  · intro hconn
    simp [detectFingerdock, hempty, hfind, hconn]
  · intro hconn
    simp [detectFingerdock, hempty, hfind, hconn]

/-- Witness for the amended C3 at a concrete OPERATING state and person-only
frame. -/
theorem C3_sticky_status_witness :
    (∀ d : List RDet, detectFingerdock d none 5
        ⟨"OPERATING", some 0, none, some (800, 300), some 0, true⟩ =
      ("OPERATING", ⟨"OPERATING", some 0, none, some (800, 300), some 0, true⟩)) ∧
    (detectFingerdock [] (some fdRoi) 5
        ⟨"OPERATING", some 0, none, some (800, 300), some 0, true⟩ =
      ("OPERATING", ⟨"OPERATING", some 0, none, some (800, 300), some 0, true⟩)) ∧
    (("OPERATING" : String) ≠ "CONNECTED" →
      detectFingerdock [personDet] (some fdRoi) 5
          ⟨"OPERATING", some 0, none, some (800, 300), some 0, true⟩ =
        ("NOT_CONNECTED",
          ⟨"NOT_CONNECTED", some 0, none, some (800, 300), some 0, true⟩)) := by
  have h := C3_sticky_status [personDet] fdRoi 5
    ⟨"OPERATING", some 0, none, some (800, 300), some 0, true⟩
  refine ⟨h.1, h.2.1, fun hne => ?_⟩
  exact (h.2.2 (by with_unfolding_all rfl) (by simp)).2 hne

theorem detectFingerdock_first_detected_preserved (dets : List RDet)
    (roi : Option Box) (t : ℚ) (state : FingerdockState) (x : ℚ)
    (h : state.first_detected = some x) :
    (detectFingerdock dets roi t state).2.first_detected = some x := by
  rcases roi with _ | r
  · exact h
  rcases hempty : dets.isEmpty with _ | _
  · rcases hfind : (dets.filter isDockCandidate).find? (fun d => inRoi d.bbox r) with _ | d
    · by_cases hconn : state.status = "CONNECTED"
      · simp [detectFingerdock, hempty, hfind, hconn, h]
      · simp [detectFingerdock, hempty, hfind, hconn, h]
    · rcases hlp : state.last_position with _ | lp
      · simp [detectFingerdock, hempty, hfind, h, hlp]
      · simp only [detectFingerdock, hempty, hfind, h, hlp]
        rcases state.last_position_time with _ | lpt <;>
          repeat' first
            | rfl
            | exact h
            | split
  · simp [detectFingerdock, hempty, h]

theorem detectFingerdock_connected_at_preserved (dets : List RDet)
    (roi : Option Box) (t : ℚ) (state : FingerdockState) (y : ℚ)
    (h : state.connected_at = some y) :
    (detectFingerdock dets roi t state).2.connected_at = some y := by
  rcases roi with _ | r
  · exact h
  rcases hempty : dets.isEmpty with _ | _
  · rcases hfind : (dets.filter isDockCandidate).find? (fun d => inRoi d.bbox r) with _ | d
    · by_cases hconn : state.status = "CONNECTED"
      · simp [detectFingerdock, hempty, hfind, hconn, h]
      · simp [detectFingerdock, hempty, hfind, hconn, h]
    · rcases hfd : state.first_detected with _ | fd
      · simp [detectFingerdock, hempty, hfind, hfd, h]
      · rcases hlp : state.last_position with _ | lp
        · simp [detectFingerdock, hempty, hfind, hfd, hlp, h]
        · simp only [detectFingerdock, hempty, hfind, hfd, hlp, h]
          rcases state.last_position_time with _ | lpt <;>
            repeat' first
              | rfl
              | exact h
              | split
  · simp [detectFingerdock, hempty, h]

/-- One call to the fingerdock detector: frame, ROI, timestamp. -/
def FingerdockCall : Type := List RDet × Option Box × ℚ

/-- Fold a sequence of `detect_fingerdock` calls over the state, as the per
tick loop of app.py does within one run. -/
def runFingerdock (state : FingerdockState) (calls : List FingerdockCall) :
    FingerdockState :=
  calls.foldl (fun st c => (detectFingerdock c.1 c.2.1 c.2.2 st).2) state

/-- Claim C10: first_detected and connected_at are write-once within a run:
whenever either field is non-None, no later sequence of `detect_fingerdock`
calls ever changes it, so each keeps the value recorded when it was first
set. -/
theorem C10_write_once (calls : List FingerdockCall) (state : FingerdockState) :
    (∀ x, state.first_detected = some x →
      (runFingerdock state calls).first_detected = some x) ∧
    (∀ y, state.connected_at = some y →
      (runFingerdock state calls).connected_at = some y) := by
  induction calls generalizing state with
  | nil => exact ⟨fun x h => h, fun y h => h⟩
  | cons c rest ih =>
      refine ⟨fun x h => ?_, fun y h => ?_⟩
      · rw [runFingerdock, List.foldl_cons]
        exact (ih _).1 x (detectFingerdock_first_detected_preserved c.1 c.2.1 c.2.2 state x h)
      · rw [runFingerdock, List.foldl_cons]
        exact (ih _).2 y (detectFingerdock_connected_at_preserved c.1 c.2.1 c.2.2 state y h)

/-- Witness for C10: a CONNECTED state with both timestamps set keeps them
across a no-candidate tick followed by a no-ROI tick. -/
theorem C10_write_once_witness :
    (runFingerdock ⟨"CONNECTED", some 1, some 2, some (900, 300), some 1, false⟩
        [([personDet], some fdRoi, 20), ([], none, 21)]).first_detected = some 1 ∧
    (runFingerdock ⟨"CONNECTED", some 1, some 2, some (900, 300), some 1, false⟩
        [([personDet], some fdRoi, 20), ([], none, 21)]).connected_at = some 2 :=
  ⟨(C10_write_once [([personDet], some fdRoi, 20), ([], none, 21)]
      ⟨"CONNECTED", some 1, some 2, some (900, 300), some 1, false⟩).1 1 rfl,
   (C10_write_once [([personDet], some fdRoi, 20), ([], none, 21)]
      ⟨"CONNECTED", some 1, some 2, some (900, 300), some 1, false⟩).2 2 rfl⟩

/-
ROI text parsing, from src/infer.py `parse_roi` (lines 26-31): split the
input on commas, strip each field, convert with int(), return the 4-tuple,
and turn any exception (wrong field count or unparseable field) into None.
The embedding is total, so the except-arm is the wildcard match arm.  Python
int() niceties not exercised by the repository (underscore digit grouping,
non-ASCII digits and whitespace) are not modelled.
-/

/-- ASCII whitespace as stripped by str.strip on the ROI strings. -/
def isSpaceChar (c : Char) : Bool :=
  c = ' ' || c = '\t' || c = '\n' || c = '\r'

/-- Strip of leading and trailing whitespace. -/
def trimChars (l : List Char) : List Char :=
  ((l.dropWhile isSpaceChar).reverse.dropWhile isSpaceChar).reverse

/-- Digits-only reading of a nonempty digit string. -/
def parseDigits (l : List Char) : Option Nat :=
  match l with
  | [] => none
  | _ =>
      if l.all (fun c => c.isDigit) then
        some (l.foldl (fun acc c => acc * 10 + (c.toNat - 48)) 0)
      else none

/-- Python int() on a stripped field: optional sign, then digits. -/
def parseIntChars (l : List Char) : Option Int :=
  match trimChars l with
  | [] => none
  | c :: rest =>
      if c = '-' then (parseDigits rest).map (fun n => -(n : Int))
      else if c = '+' then (parseDigits rest).map (fun n => (n : Int))
      else (parseDigits (c :: rest)).map (fun n => (n : Int))

/-- Split of a character list on commas (Python s.split of one separator:
the empty string yields one empty field, separators at the ends yield empty
fields). -/
def splitFields (l : List Char) : List (List Char) :=
  match l with
  | [] => [[]]
  | c :: rest =>
      if c = ',' then [] :: splitFields rest
      else
        match splitFields rest with
        | f :: fs => (c :: f) :: fs
        | [] => [[c]]

/-- Embedding of `parse_roi`: the tuple of the four parsed fields when the
split has exactly four integer fields, None otherwise (the except arm). -/
def parse_roi (s : String) : Option (Int × Int × Int × Int) :=
  match (splitFields s.data).map parseIntChars with
  | [some a, some b, some c, some d] => some (a, b, c, d)
  | _ => none

/-- Claim C8 is refuted in its validation half: `parse_roi` performs no
normalization, so the well-formed input 10,20,5,6 parses to a tuple with
x1 greater than x2, not to a rectangle with x1 smaller than x2. -/
theorem C8_counterexample :
    parse_roi "10,20,5,6" = some (10, 20, 5, 6) ∧ ¬((10 : ℤ) < 5) := by
  exact ⟨by with_unfolding_all rfl, by omega⟩

/-- Claim C8 (amended): `parse_roi` never raises (it is a total function into
an option) and malformed text yields None, but a successful parse is exactly
the four integers read from the comma-separated fields in input order, with
no normalization and no non-degeneracy check: nothing relates the returned
coordinates. -/
theorem C8_no_normalization (s : String) (a b c d : ℤ)
    (h : parse_roi s = some (a, b, c, d)) :
    (splitFields s.data).map parseIntChars = [some a, some b, some c, some d] := by
  unfold parse_roi at h
  split at h
  · next a' b' c' d' heq =>
      obtain ⟨rfl, rfl, rfl, rfl⟩ : a' = a ∧ b' = b ∧ c' = c ∧ d' = d := by
        have := Option.some.inj h
        simp only [Prod.mk.injEq] at this
        exact ⟨this.1, this.2.1, this.2.2.1, this.2.2.2⟩
      exact heq
  · exact absurd h (by simp)

/-- Witness for the amended C8 at the unnormalized concrete input. -/
theorem C8_no_normalization_witness :
    (splitFields ("10,20,5,6").data).map parseIntChars =
      [some 10, some 20, some 5, some 6] :=
  C8_no_normalization "10,20,5,6" 10 20 5 6 (by with_unfolding_all rfl)

/-
Tracker, from src/infer.py `_iou` (lines 34-52) and `SimpleIoUTracker.update`
(lines 55-107).  Python dict iteration order is insertion order, so the
track dict is an association list; the `used` set only ever answers
membership queries, so it is a plain list.
-/

/-- Raw detection as fed to the tracker (the dicts built by `yolo_detect`
and `demo_detections`; the integer class id is irrelevant to tracking and
omitted). -/
structure Det0 where
  bbox : Box
  conf : ℚ
  clsName : String
deriving DecidableEq, Repr

/-- Track record of `SimpleIoUTracker`. -/
structure Track where
  bbox : Box
  missed : Nat
  clsName : String
deriving DecidableEq, Repr

/-- State of `SimpleIoUTracker`. -/
structure TrackerState where
  iouMatch : ℚ
  maxMissed : Nat
  nextId : Nat
  tracks : List (Nat × Track)
deriving DecidableEq, Repr

/-- Embedding of src/infer.py `_iou`: zero on empty intersection or
nonpositive union, intersection over union otherwise. -/
def iouTracker (a b : Box) : ℚ :=
  let ix1 := max a.x1 b.x1
  let iy1 := max a.y1 b.y1
  let ix2 := min a.x2 b.x2
  let iy2 := min a.y2 b.y2
  if ix2 ≤ ix1 ∨ iy2 ≤ iy1 then 0
  else
    let inter := (ix2 - ix1) * (iy2 - iy1)
    let areaA := (a.x2 - a.x1) * (a.y2 - a.y1)
    let areaB := (b.x2 - b.x1) * (b.y2 - b.y1)
    let union := areaA + areaB - inter
    if union ≤ 0 then 0 else inter / union

/-- Inner candidate scan of `update` (lines 77-87): walk the tracks in order,
skip used ids and other classes, keep the strictly best IoU that also meets
the matching threshold. -/
def bestMatchAux (m : ℚ) (used : List Nat) (d : Det0) :
    List (Nat × Track) → Option Nat × ℚ → Option Nat × ℚ
  | [], acc => acc
  | p :: rest, acc =>
      bestMatchAux m used d rest
        (if used.contains p.1 then acc
         else if p.2.clsName ≠ d.clsName then acc
         else if iouTracker d.bbox p.2.bbox > acc.2 ∧ iouTracker d.bbox p.2.bbox ≥ m then
           (some p.1, iouTracker d.bbox p.2.bbox)
         else acc)

/-- Best matching unused same-class track for one detection. -/
def bestMatch (m : ℚ) (tracks : List (Nat × Track)) (used : List Nat)
    (d : Det0) : Option Nat × ℚ :=
  bestMatchAux m used d tracks (none, 0)

/-- Accumulator of the detection loop of `update`: the updated track dict,
the used id set, the id counter, and the detections paired with their
assigned track ids in input order. -/
structure UpdAcc where
  updated : List (Nat × Track)
  used : List Nat
  nextId : Nat
  out : List (Det0 × Nat)
deriving Repr

/-- Detection loop of `update` (lines 70-97): match against the tracks of
the state before the call, or allocate a fresh monotonically increasing
id. -/
def processDets (m : ℚ) (tracks : List (Nat × Track)) :
    List Det0 → UpdAcc → UpdAcc
  | [], acc => acc
  | d :: ds, acc =>
      match (bestMatch m tracks acc.used d).1 with
      | none =>
          processDets m tracks ds
            ⟨upsertA acc.nextId ⟨d.bbox, 0, d.clsName⟩ acc.updated, acc.used,
              acc.nextId + 1, acc.out ++ [(d, acc.nextId)]⟩
      | some tid =>
          processDets m tracks ds
            ⟨upsertA tid ⟨d.bbox, 0, d.clsName⟩ acc.updated, tid :: acc.used,
              acc.nextId, acc.out ++ [(d, tid)]⟩

/-- Carry-over loop of `update` (lines 99-104): unmatched tracks age by one
missed frame and survive while missed stays within max_missed. -/
def carryOver (maxMissed : Nat) (tracks updated : List (Nat × Track)) :
    List (Nat × Track) :=
  tracks.foldl
    (fun upd p =>
      if (lookupA p.1 upd).isSome then upd
      else
        if p.2.missed + 1 ≤ maxMissed then
          upsertA p.1 { p.2 with missed := p.2.missed + 1 } upd
        else upd)
    updated

/-- Embedding of `SimpleIoUTracker.update`: the new state paired with the
detections carrying their assigned track ids. -/
def trackerUpdate (st : TrackerState) (dets : List Det0) :
    TrackerState × List (Det0 × Nat) :=
  let acc := processDets st.iouMatch st.tracks dets ⟨[], [], st.nextId, []⟩
  ({ st with nextId := acc.nextId,
             tracks := carryOver st.maxMissed st.tracks acc.updated }, acc.out)

theorem lookupA_eq_some_of_mem_nodup {β : Type} {l : List (Nat × β)} {k : Nat}
    {v : β} (hnodup : (l.map Prod.fst).Nodup) (hmem : (k, v) ∈ l) :
    lookupA k l = some v := by
  induction l with
  | nil => cases hmem
  | cons p rest ih =>
      rcases List.mem_cons.mp hmem with heq | hmem'
      · subst heq; simp [lookupA]
      · have hne : p.1 ≠ k := by
          intro h
          exact (List.nodup_cons.mp hnodup).1
            (h ▸ List.mem_map_of_mem Prod.fst hmem')
        simp only [lookupA, hne, if_false]
        exact ih (List.nodup_cons.mp hnodup).2 hmem'

theorem lookupA_eq_none_of_forall_ne {β : Type} {l : List (Nat × β)} {k : Nat}
    (h : ∀ p ∈ l, p.1 ≠ k) : lookupA k l = none := by
  induction l with
  | nil => rfl
  | cons p rest ih =>
      simp only [lookupA, h p (List.mem_cons_self p rest), if_false]
      exact ih fun q hq => h q (List.mem_cons_of_mem p hq)

theorem bestMatchAux_some (m : ℚ) (used : List Nat) (d : Det0) :
    ∀ (l : List (Nat × Track)) (acc : Option Nat × ℚ) (tid : Nat),
      (bestMatchAux m used d l acc).1 = some tid →
      acc.1 = some tid ∨
        ∃ tr, (tid, tr) ∈ l ∧ tr.clsName = d.clsName ∧ tid ∉ used := by
  intro l
  induction l with
  | nil => intro acc tid h; exact Or.inl h
  | cons p rest ih =>
      intro acc tid h
      rw [bestMatchAux] at h
      rcases ih _ tid h with hacc | ⟨tr, hmem, hcls, hused⟩
      · by_cases hu : used.contains p.1 = true
        · rw [if_pos hu] at hacc
          exact Or.inl hacc
        · rw [if_neg hu] at hacc
          by_cases hc : p.2.clsName ≠ d.clsName
          · rw [if_pos hc] at hacc
            exact Or.inl hacc
          · rw [if_neg hc] at hacc
            by_cases hbest :
                iouTracker d.bbox p.2.bbox > acc.2 ∧ iouTracker d.bbox p.2.bbox ≥ m
            · rw [if_pos hbest] at hacc
              have htid : p.1 = tid := Option.some.inj hacc
              subst htid
              exact Or.inr ⟨p.2, List.mem_cons_self p rest, not_not.mp hc, by simp_all⟩
            · rw [if_neg hbest] at hacc
              exact Or.inl hacc
      · exact Or.inr ⟨tr, List.mem_cons_of_mem p hmem, hcls, hused⟩

/-- Invariant carried through the detection loop. -/
def ProcInv (n0 : Nat) (tracks : List (Nat × Track)) (acc : UpdAcc) : Prop :=
  n0 ≤ acc.nextId ∧
  List.Pairwise (fun x y : Det0 × Nat => x.2 ≠ y.2) acc.out ∧
  (∀ pr ∈ acc.out,
      (pr.2 ∈ acc.used ∧ ∃ tr, (pr.2, tr) ∈ tracks ∧ tr.clsName = pr.1.clsName) ∨
      (n0 ≤ pr.2 ∧ pr.2 < acc.nextId)) ∧
  (∀ u ∈ acc.used, ∃ tr, (u, tr) ∈ tracks)

theorem processDets_inv (m : ℚ) (tracks : List (Nat × Track)) (n0 : Nat)
    (hkeys : ∀ p ∈ tracks, p.1 < n0) :
    ∀ (ds : List Det0) (acc : UpdAcc), ProcInv n0 tracks acc →
      ProcInv n0 tracks (processDets m tracks ds acc) := by
  intro ds
  induction ds with
  | nil => intro acc h; exact h
  | cons d rest ih =>
      intro acc hinv
      obtain ⟨hble, hpw, hout, hused⟩ := hinv
      rw [processDets]
      rcases hb : (bestMatch m tracks acc.used d).1 with _ | tid
      · -- fresh id branch
        refine ih _ ⟨by dsimp only; omega, ?_, ?_, hused⟩
        · dsimp only
          refine List.pairwise_append.mpr ⟨hpw, List.pairwise_singleton _ _, ?_⟩
          intro x hx y hy
          rcases List.mem_singleton.mp hy with rfl
          rcases hout x hx with ⟨hxu, tr, hmem, _⟩ | ⟨hlo, hhi⟩
          · have := hkeys (x.2, tr) hmem
            simp only at this
            simp only [ne_eq]
            omega
          · simp only [ne_eq]
            omega
        · dsimp only
          intro pr hpr
          rcases List.mem_append.mp hpr with hold | hnew
          · rcases hout pr hold with hmatch | ⟨hlo, hhi⟩
            · exact Or.inl hmatch
            · exact Or.inr ⟨hlo, by omega⟩
          · rcases List.mem_singleton.mp hnew with rfl
            exact Or.inr ⟨hble, by omega⟩
      · -- matched branch
        rcases bestMatchAux_some m acc.used d tracks (none, 0) tid hb with habs | ⟨tr, hmem, hcls, hnu⟩
        · exact absurd habs (by simp)
        refine ih _ ⟨hble, ?_, ?_, ?_⟩
        · dsimp only
          refine List.pairwise_append.mpr ⟨hpw, List.pairwise_singleton _ _, ?_⟩
          intro x hx y hy
          rcases List.mem_singleton.mp hy with rfl
          rcases hout x hx with ⟨hxu, _⟩ | ⟨hlo, hhi⟩
          · intro hxy
            rw [hxy] at hxu
            exact hnu hxu
          · have := hkeys (tid, tr) hmem
            simp only at this
            simp only [ne_eq]
            omega
        · dsimp only
          intro pr hpr
          rcases List.mem_append.mp hpr with hold | hnew
          · rcases hout pr hold with ⟨hxu, htr⟩ | hfresh
            · exact Or.inl ⟨List.mem_cons_of_mem tid hxu, htr⟩
            · exact Or.inr hfresh
          · rcases List.mem_singleton.mp hnew with rfl
            exact Or.inl ⟨List.mem_cons_self tid _, tr, hmem, hcls⟩
        · dsimp only
          intro u hu
          rcases List.mem_cons.mp hu with rfl | hu'
          · exact ⟨tr, hmem⟩
          · exact hused u hu'

/-- Claim C6: `SimpleIoUTracker.update` only ever matches a detection to a
pre-existing track of the same cls_name, and the track ids it assigns within
one call are pairwise distinct, so two detections of different classes at
the same location in the same tick always receive different track ids.  The
hypotheses are the tracker representation invariants: track keys are below
the id counter and are unique (both hold from construction onwards). -/
theorem C6_class_matched_and_distinct (st : TrackerState) (dets : List Det0)
    (hkeys : ∀ p ∈ st.tracks, p.1 < st.nextId)
    (hnodup : (st.tracks.map Prod.fst).Nodup) :
    (∀ pr ∈ (trackerUpdate st dets).2, ∀ tr, lookupA pr.2 st.tracks = some tr →
        tr.clsName = pr.1.clsName) ∧
    List.Pairwise (fun x y : Det0 × Nat => x.2 ≠ y.2) (trackerUpdate st dets).2 := by
  have hinv0 : ProcInv st.nextId st.tracks ⟨[], [], st.nextId, []⟩ := by
    unfold ProcInv
    refine ⟨le_refl _, List.Pairwise.nil, ?_, ?_⟩ <;> intro x hx <;> cases hx
  have hinv := processDets_inv st.iouMatch st.tracks st.nextId hkeys dets _ hinv0
  obtain ⟨hble, hpw, hout, hused⟩ := hinv
  constructor
  · intro pr hpr tr hlk
    rcases hout pr hpr with ⟨hxu, tr', hmem, hcls⟩ | ⟨hlo, hhi⟩
    · have : lookupA pr.2 st.tracks = some tr' := lookupA_eq_some_of_mem_nodup hnodup hmem
      rw [hlk] at this
      exact (Option.some.inj this) ▸ hcls
    · have : lookupA pr.2 st.tracks = none := by
        refine lookupA_eq_none_of_forall_ne fun p hp h => ?_
        have := hkeys p hp
        omega
      rw [hlk] at this
      cases this
  · exact hpw

/-- Witness for C6: a tracker holding a truck track 1 and a car track 2, fed
one truck and one car detection at the same location. -/
theorem C6_class_matched_and_distinct_witness :
    (∀ pr ∈ (trackerUpdate
        ⟨1 / 4, 10, 3, [(1, ⟨⟨0, 0, 100, 100⟩, 0, "truck"⟩),
                        (2, ⟨⟨0, 0, 100, 100⟩, 0, "car"⟩)]⟩
        [⟨⟨0, 0, 100, 100⟩, 9 / 10, "truck"⟩, ⟨⟨0, 0, 100, 100⟩, 9 / 10, "car"⟩]).2,
      ∀ tr : Track, lookupA pr.2
          ([(1, ⟨⟨0, 0, 100, 100⟩, 0, "truck"⟩),
            (2, ⟨⟨0, 0, 100, 100⟩, 0, "car"⟩)] : List (Nat × Track)) = some tr →
        tr.clsName = pr.1.clsName) ∧
    List.Pairwise (fun x y : Det0 × Nat => x.2 ≠ y.2)
      (trackerUpdate
        ⟨1 / 4, 10, 3, [(1, ⟨⟨0, 0, 100, 100⟩, 0, "truck"⟩),
                        (2, ⟨⟨0, 0, 100, 100⟩, 0, "car"⟩)]⟩
        [⟨⟨0, 0, 100, 100⟩, 9 / 10, "truck"⟩, ⟨⟨0, 0, 100, 100⟩, 9 / 10, "car"⟩]).2 :=
  C6_class_matched_and_distinct
    ⟨1 / 4, 10, 3, [(1, ⟨⟨0, 0, 100, 100⟩, 0, "truck"⟩),
                    (2, ⟨⟨0, 0, 100, 100⟩, 0, "car"⟩)]⟩
    [⟨⟨0, 0, 100, 100⟩, 9 / 10, "truck"⟩, ⟨⟨0, 0, 100, 100⟩, 9 / 10, "car"⟩]
    (by intro p hp; fin_cases hp <;> norm_num)
    (by simp)

/-
Role handoff, from app.py `_bbox_iou` (lines 142-155), `_vehicles_df`
(158-163), `_update_role_memory` (166-183) and `_role_handoff` (186-244).
Roles live in the session dicts asset_roles (track id to role string) and
role_memory (role string to last track id, bbox and timestamp).
-/

/-- Memory entry of one role (`role_memory[role]`). -/
structure RoleMem where
  trackId : Int
  bbox : Box
  lastSeen : ℚ
deriving DecidableEq, Repr

/-- Session state touched by the handoff. -/
structure HandoffState where
  assetRoles : List (Int × String)
  roleMemory : List (String × RoleMem)
deriving DecidableEq, Repr

/-- Embedding of app.py `_bbox_iou`: like the tracker IoU but with areas
clamped below by 1. -/
def bboxIouApp (a b : Box) : ℚ :=
  let ix1 := max a.x1 b.x1
  let iy1 := max a.y1 b.y1
  let ix2 := min a.x2 b.x2
  let iy2 := min a.y2 b.y2
  if ix2 ≤ ix1 ∨ iy2 ≤ iy1 then 0
  else
    let inter := (ix2 - ix1) * (iy2 - iy1)
    let areaA := max 1 (a.x2 - a.x1) * max 1 (a.y2 - a.y1)
    let areaB := max 1 (b.x2 - b.x1) * max 1 (b.y2 - b.y1)
    let union := areaA + areaB - inter
    if union > 0 then inter / union else 0

/-- Embedding of `_vehicles_df`: vehicle-like classes only. -/
def vehiclesOf (dets : List RDet) : List RDet :=
  dets.filter fun d =>
    d.clsName = "truck" || d.clsName = "car" || d.clsName = "bus" || d.clsName = "train"

/-- Embedding of `_update_role_memory`: for every tagged non-UNASSIGNED role
whose track is visible among the vehicles of this frame, overwrite its
memory with the current bbox and timestamp. -/
def updateRoleMemory (dets : List RDet) (now_t : ℚ) (st : HandoffState) :
    HandoffState :=
  let veh := vehiclesOf dets
  if veh.isEmpty then st
  else
    let byTid := veh.foldl (fun m d => upsertA d.trackId d.bbox m) []
    { st with
      roleMemory :=
        st.assetRoles.foldl
          (fun rm p =>
            if p.2 = "UNASSIGNED" ∨ p.2 = "" then rm
            else
              match lookupA p.1 byTid with
              | some bbox => upsertA p.2 ⟨p.1, bbox, now_t⟩ rm
              | none => rm)
          st.roleMemory }

/-- Roles visible in this frame: roles of present vehicle track ids that are
neither empty nor UNASSIGNED (lines 199-203). -/
def presentRolesOf (veh : List RDet) (assetRoles : List (Int × String)) :
    List String :=
  veh.filterMap fun d =>
    match lookupA d.trackId assetRoles with
    | some r => if r ≠ "" ∧ r ≠ "UNASSIGNED" then some r else none
    | none => none

/-- Track ids currently carrying a real role (lines 209). -/
def assignedTidsOf (assetRoles : List (Int × String)) : List Int :=
  (assetRoles.filter fun p => p.2 ≠ "" ∧ p.2 ≠ "UNASSIGNED").map Prod.fst

/-- Unassigned vehicle candidates of this frame (lines 205-210). -/
def candOf (veh : List RDet) (assignedTids : List Int) : List RDet :=
  veh.filter fun d => !(assignedTids.contains d.trackId)

/-- One step of the best-IoU scan over the candidates (lines 227-233). -/
def bestCandStep (membox : Box) (acc : ℚ × Option (Int × Box)) (d : RDet) :
    ℚ × Option (Int × Box) :=
  if bboxIouApp membox d.bbox > acc.1 then
    (bboxIouApp membox d.bbox, some (d.trackId, d.bbox))
  else acc

/-- Best-IoU scan over the candidates (lines 223-233): strictly improving
maximum, ties keep the earlier candidate. -/
def bestCand (membox : Box) (cand : List RDet) : ℚ × Option (Int × Box) :=
  cand.foldl (bestCandStep membox) (0, none)

/-- Per-role body of the `_role_handoff` loop (lines 214-244): skip the
sentinel roles (UNASSIGNED, empty, OTHER), visible roles and stale memories;
otherwise reassign to the best candidate when its IoU meets the threshold,
removing the old mapping when it still points at this role. -/
def handoffOne (cand : List RDet) (presentRoles : List String)
    (now_t iou_thr max_age : ℚ) (s : HandoffState) (p : String × RoleMem) :
    HandoffState :=
  if p.1 = "UNASSIGNED" ∨ p.1 = "" ∨ p.1 = "OTHER" then s
  else if presentRoles.contains p.1 then s
  else if now_t - p.2.lastSeen > max_age then s
  else
    match (bestCand p.2.bbox cand).2 with
    | none => s
    | some (tid, bbox) =>
        if (bestCand p.2.bbox cand).1 ≥ iou_thr then
          { assetRoles :=
              upsertA tid p.1
                (if lookupA p.2.trackId s.assetRoles = some p.1 then
                  eraseA p.2.trackId s.assetRoles
                else s.assetRoles),
            roleMemory := upsertA p.1 ⟨tid, bbox, now_t⟩ s.roleMemory }
        else s

/-- Embedding of `_role_handoff` (app.py lines 186-244). -/
def roleHandoff (dets : List RDet) (now_t iou_thr max_age : ℚ)
    (st : HandoffState) : HandoffState :=
  if st.roleMemory.isEmpty then st
  else
    let veh := vehiclesOf dets
    if veh.isEmpty then st
    else
      let cand := candOf veh (assignedTidsOf st.assetRoles)
      if cand.isEmpty then st
      else
        st.roleMemory.foldl
          (handoffOne cand (presentRolesOf veh st.assetRoles) now_t iou_thr max_age)
          st

theorem bestCand_fold_ge (membox : Box) (l : List RDet) :
    ∀ acc : ℚ × Option (Int × Box),
      acc.1 ≤ (l.foldl (bestCandStep membox) acc).1 ∧
      ∀ d ∈ l, bboxIouApp membox d.bbox ≤ (l.foldl (bestCandStep membox) acc).1 := by
  induction l with
  | nil =>
      intro acc
      exact ⟨le_refl _, fun d hd => absurd hd (List.not_mem_nil d)⟩
  | cons d rest ih =>
      intro acc
      have hstep : acc.1 ≤ (bestCandStep membox acc d).1 ∧
          bboxIouApp membox d.bbox ≤ (bestCandStep membox acc d).1 := by
        unfold bestCandStep
        by_cases h : bboxIouApp membox d.bbox > acc.1
        · rw [if_pos h]; exact ⟨le_of_lt h, le_refl _⟩
        · rw [if_neg h]; exact ⟨le_refl _, le_of_not_lt h⟩
      obtain ⟨h1, h2⟩ := ih (bestCandStep membox acc d)
      rw [List.foldl_cons]
      refine ⟨le_trans hstep.1 h1, ?_⟩
      intro e he
      rcases List.mem_cons.mp he with rfl | he'
      · exact le_trans hstep.2 h1
      · exact h2 e he'

theorem bestCand_fold_found (membox : Box) (l : List RDet) :
    ∀ (acc : ℚ × Option (Int × Box)) (tid : Int) (bbox : Box),
      (l.foldl (bestCandStep membox) acc).2 = some (tid, bbox) →
      (∃ d ∈ l, d.trackId = tid ∧ d.bbox = bbox ∧
          bboxIouApp membox d.bbox = (l.foldl (bestCandStep membox) acc).1) ∨
      (acc.2 = some (tid, bbox) ∧ acc.1 = (l.foldl (bestCandStep membox) acc).1) := by
  induction l with
  | nil => intro acc tid bbox h; exact Or.inr ⟨h, rfl⟩
  | cons d rest ih =>
      intro acc tid bbox h
      rw [List.foldl_cons] at h
      rw [List.foldl_cons]
      rcases ih (bestCandStep membox acc d) tid bbox h with
        ⟨e, he, h1, h2, h3⟩ | ⟨hacc, heq⟩
      · exact Or.inl ⟨e, List.mem_cons_of_mem d he, h1, h2, h3⟩
      · by_cases hgt : bboxIouApp membox d.bbox > acc.1
        · have hs : bestCandStep membox acc d =
              (bboxIouApp membox d.bbox, some (d.trackId, d.bbox)) := by
            unfold bestCandStep; rw [if_pos hgt]
          rw [hs] at hacc heq ⊢
          simp only at hacc heq
          obtain ⟨h1, h2⟩ := Prod.mk.injEq _ _ _ _ ▸ Option.some.inj hacc
          exact Or.inl ⟨d, List.mem_cons_self d rest, h1, h2, heq⟩
        · have hs : bestCandStep membox acc d = acc := by
            unfold bestCandStep; rw [if_neg hgt]
          rw [hs] at hacc heq ⊢
          exact Or.inr ⟨hacc, heq⟩

theorem lookupA_eraseA_ne {α β : Type} [DecidableEq α] {l : List (α × β)} {k k' : α}
    (hne : k ≠ k') : lookupA k (eraseA k' l) = lookupA k l := by
  induction l with
  | nil => rfl
  | cons p rest ih =>
      obtain ⟨p1, p2⟩ := p
      by_cases hp : p1 = k'
      · have hpk : p1 ≠ k := by rw [hp]; exact Ne.symm hne
        simp [eraseA, lookupA, hp, hpk, Ne.symm hne]
      · by_cases hpk : p1 = k
        · simp [eraseA, lookupA, hp, hpk, hne]
        · simp [eraseA, lookupA, hp, hpk, ih]

theorem handoffOne_success (cand : List RDet) (pres : List String)
    (now_t iou_thr max_age : ℚ) (s : HandoffState) (r : String) (mem : RoleMem)
    (tid : Int) (bbox : Box)
    (hr : ¬(r = "UNASSIGNED" ∨ r = "" ∨ r = "OTHER"))
    (hpres : pres.contains r = false)
    (hage : now_t - mem.lastSeen ≤ max_age)
    (hbest : (bestCand mem.bbox cand).2 = some (tid, bbox))
    (hthr : (bestCand mem.bbox cand).1 ≥ iou_thr) :
    handoffOne cand pres now_t iou_thr max_age s (r, mem) =
      { assetRoles :=
          upsertA tid r
            (if lookupA mem.trackId s.assetRoles = some r then
              eraseA mem.trackId s.assetRoles
            else s.assetRoles),
        roleMemory := upsertA r ⟨tid, bbox, now_t⟩ s.roleMemory } := by
  rw [handoffOne, if_neg hr]
  rw [if_neg (show ¬(pres.contains r = true) by rw [hpres]; simp)]
  rw [if_neg (not_lt.mpr hage)]
  simp only [hbest]
  rw [if_pos hthr]

theorem handoffOne_skip (cand : List RDet) (pres : List String)
    (now_t iou_thr max_age : ℚ) (s : HandoffState) (r : String) (mem : RoleMem)
    (hfail : r = "OTHER" ∨ pres.contains r = true ∨ now_t - mem.lastSeen > max_age ∨
      (bestCand mem.bbox cand).2 = none ∨ (bestCand mem.bbox cand).1 < iou_thr) :
    handoffOne cand pres now_t iou_thr max_age s (r, mem) = s := by
  rw [handoffOne]
  by_cases h1 : r = "UNASSIGNED" ∨ r = "" ∨ r = "OTHER"
  · rw [if_pos h1]
  · rw [if_neg h1]
    by_cases h2 : pres.contains r = true
    · rw [if_pos h2]
    · rw [if_neg h2]
      by_cases h3 : now_t - mem.lastSeen > max_age
      · rw [if_pos h3]
      · rw [if_neg h3]
        rcases hfail with hf | hf | hf | hf | hf
        · exact absurd (Or.inr (Or.inr hf)) h1
        · exact absurd hf h2
        · exact absurd hf h3
        · simp only [hf]
        · rcases hb : (bestCand mem.bbox cand).2 with _ | pr
          · simp only [hb]
          · obtain ⟨ptid, pbox⟩ := pr
            simp only [hb]
            rw [if_neg (not_le.mpr hf)]

theorem handoffOne_memory_other (cand : List RDet) (pres : List String)
    (now_t iou_thr max_age : ℚ) (s : HandoffState) (p : String × RoleMem)
    (r : String) (hne : r ≠ p.1) :
    lookupA r (handoffOne cand pres now_t iou_thr max_age s p).roleMemory =
      lookupA r s.roleMemory := by
  rw [handoffOne]
  by_cases h1 : p.1 = "UNASSIGNED" ∨ p.1 = "" ∨ p.1 = "OTHER"
  · rw [if_pos h1]
  · rw [if_neg h1]
    by_cases h2 : pres.contains p.1 = true
    · rw [if_pos h2]
    · rw [if_neg h2]
      by_cases h3 : now_t - p.2.lastSeen > max_age
      · rw [if_pos h3]
      · rw [if_neg h3]
        rcases hb : (bestCand p.2.bbox cand).2 with _ | pr
        · simp only [hb]
        · obtain ⟨tid', bbox'⟩ := pr
          simp only [hb]
          by_cases h4 : (bestCand p.2.bbox cand).1 ≥ iou_thr
          · rw [if_pos h4]
            exact lookupA_upsertA_ne _ _ hne
          · rw [if_neg h4]

theorem handoffOne_assetRoles_preserved (cand : List RDet) (pres : List String)
    (now_t iou_thr max_age : ℚ) (s : HandoffState) (p : String × RoleMem)
    (tid : Int) (r : String)
    (h : lookupA tid s.assetRoles = some r) (hne : p.1 ≠ r)
    (hno : ∀ b : Box, (bestCand p.2.bbox cand).2 ≠ some (tid, b)) :
    lookupA tid (handoffOne cand pres now_t iou_thr max_age s p).assetRoles = some r := by
  rw [handoffOne]
  by_cases h1 : p.1 = "UNASSIGNED" ∨ p.1 = "" ∨ p.1 = "OTHER"
  · rw [if_pos h1]; exact h
  · rw [if_neg h1]
    by_cases h2 : pres.contains p.1 = true
    · rw [if_pos h2]; exact h
    · rw [if_neg h2]
      by_cases h3 : now_t - p.2.lastSeen > max_age
      · rw [if_pos h3]; exact h
      · rw [if_neg h3]
        rcases hb : (bestCand p.2.bbox cand).2 with _ | pr
        · simp only [hb]; exact h
        · obtain ⟨tid', bbox'⟩ := pr
          simp only [hb]
          by_cases h4 : (bestCand p.2.bbox cand).1 ≥ iou_thr
          · rw [if_pos h4]
            have htid : tid ≠ tid' := by
              intro hEq
              rw [← hEq] at hb
              exact hno bbox' hb
            rw [lookupA_upsertA_ne _ _ htid]
            by_cases hc : lookupA p.2.trackId s.assetRoles = some p.1
            · rw [if_pos hc]
              by_cases hk : p.2.trackId = tid
              · rw [hk, h] at hc
                exact absurd (Option.some.inj hc).symm hne
              · rw [lookupA_eraseA_ne (fun hEq => hk hEq.symm)]
                exact h
            · rw [if_neg hc]
              exact h
          · rw [if_neg h4]; exact h

theorem roleFold_memory_other (cand : List RDet) (pres : List String)
    (now_t iou_thr max_age : ℚ) (r : String) :
    ∀ (l : List (String × RoleMem)) (s : HandoffState), (∀ p ∈ l, r ≠ p.1) →
      lookupA r ((l.foldl (handoffOne cand pres now_t iou_thr max_age) s).roleMemory) =
        lookupA r s.roleMemory := by
  intro l
  induction l with
  | nil => intro s _; rfl
  | cons hd tl ih =>
      intro s h
      rw [List.foldl_cons, ih _ (fun p hp => h p (List.mem_cons_of_mem hd hp))]
      exact handoffOne_memory_other cand pres now_t iou_thr max_age s hd r
        (h hd (List.mem_cons_self hd tl))

theorem roleFold_memory_self (cand : List RDet) (pres : List String)
    (now_t iou_thr max_age : ℚ) (r : String) (mem : RoleMem) (tid : Int) (bbox : Box)
    (hr : ¬(r = "UNASSIGNED" ∨ r = "" ∨ r = "OTHER"))
    (hpres : pres.contains r = false)
    (hage : now_t - mem.lastSeen ≤ max_age)
    (hbest : (bestCand mem.bbox cand).2 = some (tid, bbox))
    (hthr : (bestCand mem.bbox cand).1 ≥ iou_thr) :
    ∀ (l : List (String × RoleMem)) (s : HandoffState), (r, mem) ∈ l →
      (l.map Prod.fst).Nodup →
      lookupA r ((l.foldl (handoffOne cand pres now_t iou_thr max_age) s).roleMemory) =
        some ⟨tid, bbox, now_t⟩ := by
  intro l
  induction l with
  | nil => intro s hmem _; cases hmem
  | cons hd tl ih =>
      intro s hmem hnodup
      rw [List.foldl_cons]
      rcases List.mem_cons.mp hmem with heq | hmem2
      · subst heq
        have hkeys : ∀ p ∈ tl, r ≠ p.1 := by
          intro p hp hEq
          have hin : r ∈ tl.map Prod.fst := by
            rw [hEq]
            exact List.mem_map_of_mem Prod.fst hp
          exact (List.nodup_cons.mp hnodup).1 hin
        rw [roleFold_memory_other cand pres now_t iou_thr max_age r tl _ hkeys]
        rw [handoffOne_success cand pres now_t iou_thr max_age s r mem tid bbox
          hr hpres hage hbest hthr]
        exact lookupA_upsertA_self r ⟨tid, bbox, now_t⟩ s.roleMemory
      · exact ih _ hmem2 (List.nodup_cons.mp hnodup).2

theorem roleFold_assetRoles_preserve (cand : List RDet) (pres : List String)
    (now_t iou_thr max_age : ℚ) (tid : Int) (r : String) :
    ∀ (l : List (String × RoleMem)) (s : HandoffState),
      lookupA tid s.assetRoles = some r →
      (∀ p ∈ l, p.1 ≠ r) →
      (∀ p ∈ l, ∀ b : Box, (bestCand p.2.bbox cand).2 ≠ some (tid, b)) →
      lookupA tid ((l.foldl (handoffOne cand pres now_t iou_thr max_age) s).assetRoles) =
        some r := by
  intro l
  induction l with
  | nil => intro s h _ _; exact h
  | cons hd tl ih =>
      intro s h hne hno
      rw [List.foldl_cons]
      exact ih _
        (handoffOne_assetRoles_preserved cand pres now_t iou_thr max_age s hd tid r h
          (hne hd (List.mem_cons_self hd tl)) (hno hd (List.mem_cons_self hd tl)))
        (fun p hp => hne p (List.mem_cons_of_mem hd hp))
        (fun p hp => hno p (List.mem_cons_of_mem hd hp))

theorem roleFold_assetRoles_self (cand : List RDet) (pres : List String)
    (now_t iou_thr max_age : ℚ) (r : String) (mem : RoleMem) (tid : Int) (bbox : Box)
    (hr : ¬(r = "UNASSIGNED" ∨ r = "" ∨ r = "OTHER"))
    (hpres : pres.contains r = false)
    (hage : now_t - mem.lastSeen ≤ max_age)
    (hbest : (bestCand mem.bbox cand).2 = some (tid, bbox))
    (hthr : (bestCand mem.bbox cand).1 ≥ iou_thr) :
    ∀ (l : List (String × RoleMem)) (s : HandoffState), (r, mem) ∈ l →
      (l.map Prod.fst).Nodup →
      (∀ p ∈ l, p.1 ≠ r → ∀ b : Box, (bestCand p.2.bbox cand).2 ≠ some (tid, b)) →
      lookupA tid ((l.foldl (handoffOne cand pres now_t iou_thr max_age) s).assetRoles) =
        some r := by
  intro l
  induction l with
  | nil => intro s hmem _ _; cases hmem
  | cons hd tl ih =>
      intro s hmem hnodup hno
      rw [List.foldl_cons]
      rcases List.mem_cons.mp hmem with heq | hmem2
      · subst heq
        have hkeys : ∀ p ∈ tl, p.1 ≠ r := by
          intro p hp hEq
          have hin : r ∈ tl.map Prod.fst := by
            rw [← hEq]
            exact List.mem_map_of_mem Prod.fst hp
          exact (List.nodup_cons.mp hnodup).1 hin
        apply roleFold_assetRoles_preserve cand pres now_t iou_thr max_age tid r tl _
        · rw [handoffOne_success cand pres now_t iou_thr max_age s r mem tid bbox
            hr hpres hage hbest hthr]
          exact lookupA_upsertA_self tid r _
        · exact hkeys
        · intro p hp
          exact hno p (List.mem_cons_of_mem _ hp) (hkeys p hp)
      · exact ih _ hmem2 (List.nodup_cons.mp hnodup).2
          (fun p hp => hno p (List.mem_cons_of_mem hd hp))

theorem roleHandoff_eq_fold (dets : List RDet) (now_t iou_thr max_age : ℚ)
    (st : HandoffState) (h1 : st.roleMemory ≠ []) (h2 : vehiclesOf dets ≠ [])
    (h3 : candOf (vehiclesOf dets) (assignedTidsOf st.assetRoles) ≠ []) :
    roleHandoff dets now_t iou_thr max_age st =
      st.roleMemory.foldl
        (handoffOne (candOf (vehiclesOf dets) (assignedTidsOf st.assetRoles))
          (presentRolesOf (vehiclesOf dets) st.assetRoles) now_t iou_thr max_age) st := by
  have e1 : st.roleMemory.isEmpty = false := by simpa [List.isEmpty_iff] using h1
  have e2 : (vehiclesOf dets).isEmpty = false := by simpa [List.isEmpty_iff] using h2
  have e3 : (candOf (vehiclesOf dets) (assignedTidsOf st.assetRoles)).isEmpty = false := by
    simpa [List.isEmpty_iff] using h3
  rw [roleHandoff]
  simp only [e1, e2, e3, Bool.false_eq_true, if_false]

/-- Claim C5 (amended): the behavior of `_role_handoff` on every role in
role memory.  The candidates and present roles are computed once, then the
loop body runs for each memorised role on the threaded state.  Conjunct 1:
at its step, any role r outside the sentinels (UNASSIGNED, empty, OTHER)
that is not visible, young enough, and whose best-IoU candidate meets
iou_thr is reassigned: stale mapping removed exactly when it still points
at r, the candidate track id mapped to r, the memory of r rewritten to the
new track id and bbox; the chosen candidate realises the maximum IoU.
Conjunct 2: a role failing the conditions (OTHER included) leaves the state
unchanged at its step.  Conjunct 3: away from the degenerate early exits,
`_role_handoff` is exactly the fold of this body over the memory.
Conjunct 4: consequently, after the whole pass the memory of every
qualifying role holds the new track id and bbox.  Conjunct 5: the new track
still carries the role after the pass provided no other memorised role
selects the same best candidate; a later role choosing the same candidate
would overwrite the mapping, see the counterexample. -/
theorem C5_role_handoff :
    (∀ (cand : List RDet) (pres : List String) (now_t iou_thr max_age : ℚ)
        (s : HandoffState) (r : String) (mem : RoleMem) (tid : Int) (bbox : Box),
      ¬(r = "UNASSIGNED" ∨ r = "" ∨ r = "OTHER") →
      pres.contains r = false →
      now_t - mem.lastSeen ≤ max_age →
      (bestCand mem.bbox cand).2 = some (tid, bbox) →
      (bestCand mem.bbox cand).1 ≥ iou_thr →
      handoffOne cand pres now_t iou_thr max_age s (r, mem) =
        { assetRoles :=
            upsertA tid r
              (if lookupA mem.trackId s.assetRoles = some r then
                eraseA mem.trackId s.assetRoles
              else s.assetRoles),
          roleMemory := upsertA r ⟨tid, bbox, now_t⟩ s.roleMemory } ∧
      (∃ d ∈ cand, d.trackId = tid ∧ d.bbox = bbox ∧
          bboxIouApp mem.bbox d.bbox = (bestCand mem.bbox cand).1) ∧
      (∀ d ∈ cand, bboxIouApp mem.bbox d.bbox ≤ (bestCand mem.bbox cand).1)) ∧
    (∀ (cand : List RDet) (pres : List String) (now_t iou_thr max_age : ℚ)
        (s : HandoffState) (r : String) (mem : RoleMem),
      (r = "OTHER" ∨ pres.contains r = true ∨ now_t - mem.lastSeen > max_age ∨
        (bestCand mem.bbox cand).2 = none ∨ (bestCand mem.bbox cand).1 < iou_thr) →
      handoffOne cand pres now_t iou_thr max_age s (r, mem) = s) ∧
    (∀ (dets : List RDet) (now_t iou_thr max_age : ℚ) (st : HandoffState),
      st.roleMemory ≠ [] → vehiclesOf dets ≠ [] →
      candOf (vehiclesOf dets) (assignedTidsOf st.assetRoles) ≠ [] →
      roleHandoff dets now_t iou_thr max_age st =
        st.roleMemory.foldl
          (handoffOne (candOf (vehiclesOf dets) (assignedTidsOf st.assetRoles))
            (presentRolesOf (vehiclesOf dets) st.assetRoles) now_t iou_thr max_age) st) ∧
    (∀ (dets : List RDet) (now_t iou_thr max_age : ℚ) (st : HandoffState)
        (r : String) (mem : RoleMem) (tid : Int) (bbox : Box),
      (r, mem) ∈ st.roleMemory → (st.roleMemory.map Prod.fst).Nodup →
      ¬(r = "UNASSIGNED" ∨ r = "" ∨ r = "OTHER") →
      (presentRolesOf (vehiclesOf dets) st.assetRoles).contains r = false →
      now_t - mem.lastSeen ≤ max_age →
      (bestCand mem.bbox (candOf (vehiclesOf dets) (assignedTidsOf st.assetRoles))).2 =
        some (tid, bbox) →
      (bestCand mem.bbox (candOf (vehiclesOf dets) (assignedTidsOf st.assetRoles))).1 ≥
        iou_thr →
      lookupA r (roleHandoff dets now_t iou_thr max_age st).roleMemory =
        some ⟨tid, bbox, now_t⟩) ∧
    (∀ (dets : List RDet) (now_t iou_thr max_age : ℚ) (st : HandoffState)
        (r : String) (mem : RoleMem) (tid : Int) (bbox : Box),
      (r, mem) ∈ st.roleMemory → (st.roleMemory.map Prod.fst).Nodup →
      ¬(r = "UNASSIGNED" ∨ r = "" ∨ r = "OTHER") →
      (presentRolesOf (vehiclesOf dets) st.assetRoles).contains r = false →
      now_t - mem.lastSeen ≤ max_age →
      (bestCand mem.bbox (candOf (vehiclesOf dets) (assignedTidsOf st.assetRoles))).2 =
        some (tid, bbox) →
      (bestCand mem.bbox (candOf (vehiclesOf dets) (assignedTidsOf st.assetRoles))).1 ≥
        iou_thr →
      (∀ p ∈ st.roleMemory, p.1 ≠ r →
        ∀ b : Box,
          (bestCand p.2.bbox (candOf (vehiclesOf dets) (assignedTidsOf st.assetRoles))).2 ≠
            some (tid, b)) →
      lookupA tid (roleHandoff dets now_t iou_thr max_age st).assetRoles = some r) := by
  refine ⟨?_, ?_, ?_, ?_, ?_⟩
  · intro cand pres now_t iou_thr max_age s r mem tid bbox hr hpres hage hbest hthr
    refine ⟨handoffOne_success cand pres now_t iou_thr max_age s r mem tid bbox
      hr hpres hage hbest hthr, ?_, ?_⟩
    · obtain hfound := bestCand_fold_found mem.bbox cand (0, none) tid bbox hbest
      rcases hfound with ⟨d, hd, h1, h2, h3⟩ | ⟨habs, _⟩
      · exact ⟨d, hd, h1, h2, h3⟩
      · cases habs
    · exact (bestCand_fold_ge mem.bbox cand (0, none)).2
  · intro cand pres now_t iou_thr max_age s r mem hfail
    exact handoffOne_skip cand pres now_t iou_thr max_age s r mem hfail
  · intro dets now_t iou_thr max_age st h1 h2 h3
    exact roleHandoff_eq_fold dets now_t iou_thr max_age st h1 h2 h3
  · intro dets now_t iou_thr max_age st r mem tid bbox hmem hnodup hr hpres hage hbest hthr
    have hcandne : candOf (vehiclesOf dets) (assignedTidsOf st.assetRoles) ≠ [] := by
      intro hc
      rw [hc] at hbest
      exact absurd hbest (by simp [bestCand])
    have hvehne : vehiclesOf dets ≠ [] := by
      intro hv
      exact hcandne (by simp [candOf, hv])
    rw [roleHandoff_eq_fold dets now_t iou_thr max_age st
      (List.ne_nil_of_mem hmem) hvehne hcandne]
    exact roleFold_memory_self (candOf (vehiclesOf dets) (assignedTidsOf st.assetRoles))
      (presentRolesOf (vehiclesOf dets) st.assetRoles) now_t iou_thr max_age r mem tid bbox
      hr hpres hage hbest hthr st.roleMemory st hmem hnodup
  · intro dets now_t iou_thr max_age st r mem tid bbox hmem hnodup hr hpres hage hbest
      hthr hno
    have hcandne : candOf (vehiclesOf dets) (assignedTidsOf st.assetRoles) ≠ [] := by
      intro hc
      rw [hc] at hbest
      exact absurd hbest (by simp [bestCand])
    have hvehne : vehiclesOf dets ≠ [] := by
      intro hv
      exact hcandne (by simp [candOf, hv])
    rw [roleHandoff_eq_fold dets now_t iou_thr max_age st
      (List.ne_nil_of_mem hmem) hvehne hcandne]
    exact roleFold_assetRoles_self (candOf (vehiclesOf dets) (assignedTidsOf st.assetRoles))
      (presentRolesOf (vehiclesOf dets) st.assetRoles) now_t iou_thr max_age r mem tid bbox
      hr hpres hage hbest hthr st.roleMemory st hmem hnodup hno

/-- Unit square scaled to 100 px, used as a shared bbox. -/
def box100 : Box := ⟨0, 0, 100, 100⟩

/-- Truck detection on track 5. -/
def truck5 : RDet := ⟨box100, 9 / 10, "truck", 5⟩

/-- Truck detection on track 6 at the same location. -/
def truck6 : RDet := ⟨box100, 9 / 10, "truck", 6⟩

/-- Truck detection on track 9 at the same location. -/
def truck9 : RDet := ⟨box100, 9 / 10, "truck", 9⟩

/-- Claim C5 is refuted twice.  First, for the role OTHER:
`_update_role_memory` does store OTHER in role memory (it only skips
UNASSIGNED and empty), but `_role_handoff` skips OTHER, so a memorised
OTHER role that is not visible, young enough and has a perfect-IoU
unassigned candidate is left detached: the handoff returns the state
unchanged and track 6 receives no role.  Second, for two memorised roles
sharing one best candidate: both FUEL_TRUCK (vanished track 5) and
GPU_TRUCK (vanished track 7) qualify with best candidate track 9, and
since candidates and present roles are computed once before the loop, the
later GPU_TRUCK step overwrites the FUEL_TRUCK mapping on track 9, leaving
FUEL_TRUCK assigned to no track at all, although every condition of the
claim held for it. -/
theorem C5_counterexample :
    (updateRoleMemory [truck5] 0 ⟨[(5, "OTHER")], []⟩).roleMemory =
      [("OTHER", ⟨5, box100, 0⟩)] ∧
    bboxIouApp box100 box100 = 1 ∧ ((1 : ℚ) ≥ 1 / 5) ∧
    roleHandoff [truck6] 1 (1 / 5) 8 ⟨[(5, "OTHER")], [("OTHER", ⟨5, box100, 0⟩)]⟩ =
      ⟨[(5, "OTHER")], [("OTHER", ⟨5, box100, 0⟩)]⟩ ∧
    lookupA 6 (roleHandoff [truck6] 1 (1 / 5) 8
        ⟨[(5, "OTHER")], [("OTHER", ⟨5, box100, 0⟩)]⟩).assetRoles = none ∧
    roleHandoff [truck9] 1 (1 / 5) 8
        ⟨[(5, "FUEL_TRUCK"), (7, "GPU_TRUCK")],
         [("FUEL_TRUCK", ⟨5, box100, 0⟩), ("GPU_TRUCK", ⟨7, box100, 0⟩)]⟩ =
      ⟨[(9, "GPU_TRUCK")],
       [("FUEL_TRUCK", ⟨9, box100, 1⟩), ("GPU_TRUCK", ⟨9, box100, 1⟩)]⟩ ∧
    (∀ k : ℤ, lookupA k (roleHandoff [truck9] 1 (1 / 5) 8
        ⟨[(5, "FUEL_TRUCK"), (7, "GPU_TRUCK")],
         [("FUEL_TRUCK", ⟨5, box100, 0⟩), ("GPU_TRUCK", ⟨7, box100, 0⟩)]⟩).assetRoles ≠
      some "FUEL_TRUCK") := by
  refine ⟨by with_unfolding_all rfl, by with_unfolding_all rfl, by norm_num,
    by with_unfolding_all rfl, by with_unfolding_all rfl, by with_unfolding_all rfl, ?_⟩
  intro k
  have h : roleHandoff [truck9] 1 (1 / 5) 8
      ⟨[(5, "FUEL_TRUCK"), (7, "GPU_TRUCK")],
       [("FUEL_TRUCK", ⟨5, box100, 0⟩), ("GPU_TRUCK", ⟨7, box100, 0⟩)]⟩ =
      ⟨[(9, "GPU_TRUCK")],
       [("FUEL_TRUCK", ⟨9, box100, 1⟩), ("GPU_TRUCK", ⟨9, box100, 1⟩)]⟩ := by
    with_unfolding_all rfl
  rw [h]
  by_cases hk : (9 : ℤ) = k
  · simp [lookupA, hk]
  · simp [lookupA, hk]

/-- Witness for the amended C5 at the concrete FUEL_TRUCK handoff: track 5
vanished, the unassigned truck on track 6 matches with IoU 1, and each of
the five conjuncts is exercised (the fifth with the no-shared-candidate
side condition holding vacuously for the one-role memory, the second at the
skipped role OTHER). -/
theorem C5_role_handoff_witness :
    (handoffOne [truck6] [] 1 (1 / 5) 8
        ⟨[((5 : ℤ), "FUEL_TRUCK")], [("FUEL_TRUCK", ⟨5, box100, 0⟩)]⟩
        ("FUEL_TRUCK", ⟨5, box100, 0⟩) =
      { assetRoles :=
          upsertA 6 "FUEL_TRUCK"
            (if lookupA (5 : ℤ) [((5 : ℤ), "FUEL_TRUCK")] = some "FUEL_TRUCK" then
              eraseA (5 : ℤ) [((5 : ℤ), "FUEL_TRUCK")]
            else [((5 : ℤ), "FUEL_TRUCK")]),
        roleMemory := upsertA "FUEL_TRUCK" ⟨6, box100, 1⟩
          [("FUEL_TRUCK", ⟨5, box100, 0⟩)] } ∧
      (∃ d ∈ [truck6], d.trackId = 6 ∧ d.bbox = box100 ∧
          bboxIouApp box100 d.bbox = (bestCand box100 [truck6]).1) ∧
      (∀ d ∈ [truck6], bboxIouApp box100 d.bbox ≤ (bestCand box100 [truck6]).1)) ∧
    (handoffOne [truck6] [] 1 (1 / 5) 8
        ⟨[((5 : ℤ), "FUEL_TRUCK")], [("FUEL_TRUCK", ⟨5, box100, 0⟩)]⟩
        ("OTHER", ⟨5, box100, 0⟩) =
      ⟨[((5 : ℤ), "FUEL_TRUCK")], [("FUEL_TRUCK", ⟨5, box100, 0⟩)]⟩) ∧
    (roleHandoff [truck6] 1 (1 / 5) 8
        ⟨[((5 : ℤ), "FUEL_TRUCK")], [("FUEL_TRUCK", ⟨5, box100, 0⟩)]⟩ =
      List.foldl
        (handoffOne
          (candOf (vehiclesOf [truck6]) (assignedTidsOf [((5 : ℤ), "FUEL_TRUCK")]))
          (presentRolesOf (vehiclesOf [truck6]) [((5 : ℤ), "FUEL_TRUCK")]) 1 (1 / 5) 8)
        ⟨[((5 : ℤ), "FUEL_TRUCK")], [("FUEL_TRUCK", ⟨5, box100, 0⟩)]⟩
        [("FUEL_TRUCK", ⟨5, box100, 0⟩)]) ∧
    lookupA "FUEL_TRUCK"
        (roleHandoff [truck6] 1 (1 / 5) 8
          ⟨[((5 : ℤ), "FUEL_TRUCK")], [("FUEL_TRUCK", ⟨5, box100, 0⟩)]⟩).roleMemory =
      some ⟨6, box100, 1⟩ ∧
    lookupA (6 : ℤ)
        (roleHandoff [truck6] 1 (1 / 5) 8
          ⟨[((5 : ℤ), "FUEL_TRUCK")], [("FUEL_TRUCK", ⟨5, box100, 0⟩)]⟩).assetRoles =
      some "FUEL_TRUCK" := by
  have hthr1 : (bestCand (RoleMem.mk 5 box100 0).bbox [truck6]).1 ≥ 1 / 5 := by
    have hb : (bestCand (RoleMem.mk 5 box100 0).bbox [truck6]).1 = 1 := by
      with_unfolding_all rfl
    rw [ge_iff_le, hb]
    norm_num
  have hthr2 : (bestCand (RoleMem.mk 5 box100 0).bbox
      (candOf (vehiclesOf [truck6]) (assignedTidsOf
        (HandoffState.mk [((5 : ℤ), "FUEL_TRUCK")]
          [("FUEL_TRUCK", ⟨5, box100, 0⟩)]).assetRoles))).1 ≥ 1 / 5 := by
    have hb : (bestCand (RoleMem.mk 5 box100 0).bbox
        (candOf (vehiclesOf [truck6]) (assignedTidsOf
          (HandoffState.mk [((5 : ℤ), "FUEL_TRUCK")]
            [("FUEL_TRUCK", ⟨5, box100, 0⟩)]).assetRoles))).1 = 1 := by
      with_unfolding_all rfl
    rw [ge_iff_le, hb]
    norm_num
  refine ⟨?_, ?_, ?_, ?_, ?_⟩
  · exact C5_role_handoff.1 [truck6] [] 1 (1 / 5) 8
      ⟨[((5 : ℤ), "FUEL_TRUCK")], [("FUEL_TRUCK", ⟨5, box100, 0⟩)]⟩
      "FUEL_TRUCK" ⟨5, box100, 0⟩ 6 box100 (by simp) rfl (by norm_num)
      (by with_unfolding_all rfl) hthr1
  · exact C5_role_handoff.2.1 [truck6] [] 1 (1 / 5) 8
      ⟨[((5 : ℤ), "FUEL_TRUCK")], [("FUEL_TRUCK", ⟨5, box100, 0⟩)]⟩
      "OTHER" ⟨5, box100, 0⟩ (Or.inl rfl)
  · exact C5_role_handoff.2.2.1 [truck6] 1 (1 / 5) 8
      ⟨[((5 : ℤ), "FUEL_TRUCK")], [("FUEL_TRUCK", ⟨5, box100, 0⟩)]⟩
      (by simp)
      (by
        have h : vehiclesOf [truck6] = [truck6] := by with_unfolding_all rfl
        rw [h]; simp)
      (by
        have h : candOf (vehiclesOf [truck6]) (assignedTidsOf [((5 : ℤ), "FUEL_TRUCK")]) =
            [truck6] := by with_unfolding_all rfl
        rw [h]; simp)
  · exact C5_role_handoff.2.2.2.1 [truck6] 1 (1 / 5) 8
      ⟨[((5 : ℤ), "FUEL_TRUCK")], [("FUEL_TRUCK", ⟨5, box100, 0⟩)]⟩
      "FUEL_TRUCK" ⟨5, box100, 0⟩ 6 box100 (by simp) (by simp) (by simp)
      (by with_unfolding_all rfl) (by norm_num) (by with_unfolding_all rfl) hthr2
  · exact C5_role_handoff.2.2.2.2 [truck6] 1 (1 / 5) 8
      ⟨[((5 : ℤ), "FUEL_TRUCK")], [("FUEL_TRUCK", ⟨5, box100, 0⟩)]⟩
      "FUEL_TRUCK" ⟨5, box100, 0⟩ 6 box100 (by simp) (by simp) (by simp)
      (by with_unfolding_all rfl) (by norm_num) (by with_unfolding_all rfl) hthr2
      (by
        intro p hp hne
        fin_cases hp
        exact absurd rfl hne)


/-
Passenger flow, from src/passenger_flow.py (`PassengerFlowState`,
`_detect_movement_direction` and `update_passenger_flow`, lines 16-237).
-/

/-- State record of `PassengerFlowState`.  The two counters are declared in
the source but never written by `update_passenger_flow`. -/
structure PFState where
  personPositions : List (Int × List (ℚ × ℚ × ℚ))
  leftToRightCount : Nat
  rightToLeftCount : Nat
  lastDeboarding : Option ℚ
  lastBoarding : Option ℚ
  lastGroundStaff : Option ℚ
  deboardingStarted : Bool
  boardingStarted : Bool
  groundStaffPrepDone : Bool
  deboardingTimeout : ℚ
  boardingTimeout : ℚ
deriving DecidableEq, Repr

/-- Default `PassengerFlowState()` with the 50 s and 10 s timeouts. -/
def initPF : PFState := ⟨[], 0, 0, none, none, none, false, false, false, 50, 10⟩

/-- Return dict of `update_passenger_flow`. -/
structure FlowResult where
  ground_staff_prep : String
  passenger_deboarding : String
  passenger_boarding : String
deriving DecidableEq, Repr

/-- Embedding of `_detect_movement_direction` with its default
min_samples = 3 (the only way it is called): average x-change over the last
three samples, thresholded at 5 px per frame. -/
def detectDirection (positions : List (ℚ × ℚ × ℚ)) : Option String :=
  if positions.length < 3 then none
  else
    let recent := positions.drop (positions.length - 3)
    let changes := (recent.zip (recent.drop 1)).map fun pr => pr.2.1 - pr.1.1
    if changes.isEmpty then none
    else
      let avg := changes.sum / (changes.length : ℚ)
      if avg > 5 then some "left_to_right"
      else if avg < -5 then some "right_to_left"
      else none

/-- People of the frame whose centroid falls in the passenger-door ROI, as
(track id, cx, cy) in input order (lines 124-132). -/
def peopleInRoi (dets : List RDet) (roi : Box) : List (Int × ℚ × ℚ) :=
  dets.filterMap fun d =>
    if decide (d.clsName = "person") && inRoi d.bbox roi then
      some (d.trackId, centroid d.bbox)
    else none

/-- Timestamp of the last history sample (positions[-1][2], only consulted
on nonempty histories). -/
def lastTimeOf (ps : List (ℚ × ℚ × ℚ)) : ℚ := ((ps.getLast?).getD (0, 0, 0)).2.2

/-- First-occurrence deduplication (the Python `current_tracks` set; only
membership and one-count-per-track matter). -/
def dedupKeepFirst (l : List Int) : List Int :=
  l.foldl (fun acc x => if acc.contains x then acc else acc ++ [x]) []

/-- Embedding of `update_passenger_flow` (src/passenger_flow.py lines
95-237), returning the result dict paired with the mutated state. -/
def updatePassengerFlow (dets : List RDet) (roi_passenger_door : Option Box)
    (t_sec : ℚ) (state : PFState) : FlowResult × PFState :=
  let result0 : FlowResult := ⟨"NOT_STARTED", "NOT_STARTED", "NOT_STARTED"⟩
  match roi_passenger_door with
  | none => (result0, state)
  | some roi =>
      if dets.isEmpty then (result0, state)
      else
        let people := peopleInRoi dets roi
        let currentTracks := dedupKeepFirst (people.map fun p => p.1)
        let pp1 := people.foldl
          (fun pp trio =>
            let ps := ((lookupA trio.1 pp).getD []) ++ [(trio.2.1, trio.2.2, t_sec)]
            upsertA trio.1 (if ps.length > 10 then ps.drop (ps.length - 10) else ps) pp)
          state.personPositions
        let pp2 := pp1.filter fun p =>
          !(!(currentTracks.contains p.1) && !p.2.isEmpty &&
            decide (t_sec - lastTimeOf p.2 > 5))
        let dirs := currentTracks.map fun tid => detectDirection ((lookupA tid pp2).getD [])
        let l2r := (dirs.filter fun d => d = some "left_to_right").length
        let r2l := (dirs.filter fun d => d = some "right_to_left").length
        let lastDeb := if l2r > 0 then some t_sec else state.lastDeboarding
        let lastBoard :=
          if r2l > 0 ∧ state.deboardingStarted = true then some t_sec else state.lastBoarding
        let lastGS :=
          if r2l > 0 ∧ state.deboardingStarted = false then some t_sec
          else state.lastGroundStaff
        let gs :=
          if state.deboardingStarted = false ∧ state.groundStaffPrepDone = false then
            match lastGS with
            | some g =>
                if t_sec - g > 10 then ("DONE", true)
                else ("ONGOING", state.groundStaffPrepDone)
            | none => ("NOT_STARTED", state.groundStaffPrepDone)
          else if state.groundStaffPrepDone = true then ("DONE", state.groundStaffPrepDone)
          else ("NOT_STARTED", state.groundStaffPrepDone)
        let deb :=
          match lastDeb with
          | some ld =>
              if state.deboardingStarted = false then ("STARTED", true)
              else if t_sec - ld < state.deboardingTimeout then ("ONGOING", true)
              else ("DONE", true)
          | none => ("NOT_STARTED", state.deboardingStarted)
        let debDone : Bool :=
          match lastDeb with
          | some ld => decide (t_sec - ld ≥ state.deboardingTimeout)
          | none => false
        let board :=
          if debDone then
            match lastBoard with
            | some lb =>
                if state.boardingStarted = false then
                  if t_sec - lb ≥ state.boardingTimeout then ("STARTED", true)
                  else ("NOT_STARTED", state.boardingStarted)
                else ("ONGOING", state.boardingStarted)
            | none => ("NOT_STARTED", state.boardingStarted)
          else ("NOT_STARTED", state.boardingStarted)
        (⟨gs.1, deb.1, board.1⟩,
          { personPositions := pp2,
            leftToRightCount := state.leftToRightCount,
            rightToLeftCount := state.rightToLeftCount,
            lastDeboarding := lastDeb,
            lastBoarding := lastBoard,
            lastGroundStaff := lastGS,
            deboardingStarted := deb.2,
            boardingStarted := board.2,
            groundStaffPrepDone := gs.2,
            deboardingTimeout := state.deboardingTimeout,
            boardingTimeout := state.boardingTimeout })

/-- Run the flow detector over a list of (frame, timestamp) ticks, keeping
every result. -/
def runFlowAux (roi : Option Box) : List (List RDet × ℚ) → PFState →
    List FlowResult × PFState
  | [], st => ([], st)
  | c :: cs, st =>
      let r := updatePassengerFlow c.1 roi c.2 st
      let rest := runFlowAux roi cs r.2
      (r.1 :: rest.1, rest.2)

/-- Person detection with centroid (x, 110). -/
def pdet (tid : Int) (x : ℚ) : RDet := ⟨⟨x - 5, 100, x + 5, 120⟩, 9 / 10, "person", tid⟩

/-- Passenger-door ROI containing all the trace detections. -/
def flowRoi : Box := ⟨0, 0, 1000, 1000⟩

/-- Scenario: person 1 walks left to right at ticks 0-2 (deboarding), then
silence past the 50 s timeout; person 2 walks right to left continuously at
ticks 55-67 (boarding signal sustained from t=57, when three samples exist,
through t=67); finally person 3 stands still at t=77 after ten signal-free
seconds. -/
def boardingTrace : List (List RDet × ℚ) :=
  [([pdet 1 100], 0), ([pdet 1 110], 1), ([pdet 1 120], 2),
   ([pdet 2 200], 55), ([pdet 2 190], 56), ([pdet 2 180], 57),
   ([pdet 2 170], 58), ([pdet 2 160], 59), ([pdet 2 150], 60),
   ([pdet 2 140], 61), ([pdet 2 130], 62), ([pdet 2 120], 63),
   ([pdet 2 110], 64), ([pdet 2 100], 65), ([pdet 2 90], 66),
   ([pdet 2 80], 67), ([pdet 3 80], 77)]

/-- Claim C4 evaluated on the code: with deboarding DONE and a right-to-left
signal sustained for more than ten consecutive seconds (lastBoarding is
refreshed at every tick from t=57 through t=67), passenger_boarding is still
NOT_STARTED at every one of the first 16 ticks, because the code requires
t - last_boarding_detection to reach 10, which a sustained signal keeps at
zero; one stationary person after ten signal-free seconds (t=77) then flips
it to STARTED without any fresh right-to-left motion.  This contradicts the
claim and the source comments (Need sustained movement for 10 seconds /
Movement for 10s means START). -/
theorem C4_boarding_divergence :
    ((runFlowAux (some flowRoi) (boardingTrace.take 16) initPF).1.map
        FlowResult.passenger_boarding = List.replicate 16 "NOT_STARTED") ∧
    (runFlowAux (some flowRoi) (boardingTrace.take 16) initPF).2.boardingStarted = false ∧
    (runFlowAux (some flowRoi) (boardingTrace.take 16) initPF).2.lastDeboarding = some 2 ∧
    ((List.range 11).map fun i =>
        (runFlowAux (some flowRoi) (boardingTrace.take (6 + i)) initPF).2.lastBoarding) =
      ((List.range 11).map fun i => some ((57 : ℚ) + i)) ∧
    ((runFlowAux (some flowRoi) boardingTrace initPF).1.getLast?).map
        FlowResult.passenger_boarding = some "STARTED" ∧
    (runFlowAux (some flowRoi) boardingTrace initPF).2.lastBoarding = some 67 := by
  refine ⟨?_, ?_, ?_, ?_, ?_, ?_⟩ <;> with_unfolding_all rfl

end PortHub
